import Mathlib

/-!
Verification development for the SemanticPipe article optimizer
(`semanticpipe.py`, with the standalone audit tool `audit.py`).

Text is modelled as `List Nat`: one `Nat` per Unicode code point, exactly as
Python 3 strings are sequences of code points.  Regular-expression scans from
the source are embedded as dedicated scanners with Python `re` semantics
(leftmost, non-overlapping, greedy with the limited backtracking each concrete
pattern can exercise).  Character classes `\w`, `\s`, `\d` and the case maps
are modelled on the ASCII range; every concrete input used in a theorem below
is ASCII apart from the explicit mojibake code points, where the model is
exact.
-/

set_option maxRecDepth 8000

namespace SemanticPipe

/-- Text is a list of Unicode code points, as in Python 3. -/
abbrev Text := List Nat

/-- Converts a Lean string literal to the code-point list it denotes. -/
def ofStr (s : String) : Text := s.data.map Char.toNat

/-- Python `\s` on the ASCII range: space, tab, newline, vertical tab,
form feed, carriage return. -/
def isWs (c : Nat) : Bool := c == 32 || c == 9 || c == 10 || c == 11 || c == 12 || c == 13

/-- Python `\d`: a decimal digit. -/
def isDigit (c : Nat) : Bool := 48 ≤ c && c ≤ 57

/-- An ASCII uppercase letter (Python `str.isupper` / `[A-Z]`). -/
def isUpper (c : Nat) : Bool := 65 ≤ c && c ≤ 90

/-- An ASCII lowercase letter (`[a-z]`). -/
def isLower (c : Nat) : Bool := 97 ≤ c && c ≤ 122

/-- Python `\w` on the ASCII range: letter, digit or underscore. -/
def isWord (c : Nat) : Bool := isDigit c || isUpper c || isLower c || c == 95

/-- ASCII lowercasing of one code point (Python `str.lower` on ASCII). -/
def lowerChar (c : Nat) : Nat := if isUpper c then c + 32 else c

/-- ASCII uppercasing of one code point (Python `str.upper` on ASCII). -/
def upperChar (c : Nat) : Nat := if isLower c then c - 32 else c

/-- Lowercases a text (Python `str.lower`, ASCII model). -/
def lowerText (t : Text) : Text := t.map lowerChar

/-- Case-insensitive equality of two code points (ASCII model). -/
def eqCI (a b : Nat) : Bool := lowerChar a == lowerChar b

/-- Case-insensitive list prefix test, used by the `re.I` scanners. -/
def isPrefixCI : Text → Text → Bool
  | [], _ => true
  | _ :: _, [] => false
  | p :: ps, c :: cs => eqCI p c && isPrefixCI ps cs

/-- Python `needle in haystack` (substring containment; `[] ⊆` anything). -/
def containsSub (needle : Text) : Text → Bool
  | [] => needle.isEmpty
  | c :: cs => needle.isPrefixOf (c :: cs) || containsSub needle cs

/-- Python `haystack.index(needle)`: index of the first occurrence.  Only
meaningful when `containsSub needle haystack` holds; returns the length of
the haystack otherwise. -/
def firstSubIdx (needle : Text) : Text → Nat
  | [] => 0
  | c :: cs => if needle.isPrefixOf (c :: cs) then 0 else firstSubIdx needle cs + 1

/-- Python `s.split(sep)[0]`: the prefix before the first occurrence of
`sep`, the whole text when `sep` does not occur. -/
def beforeFirst (sep : Text) (t : Text) : Text := t.take (firstSubIdx sep t)

/-- Python `s[i:]` for the suffix from the first occurrence of `sep`;
empty when `sep` does not occur. -/
def fromFirst (sep : Text) (t : Text) : Text := t.drop (firstSubIdx sep t)

/-- One step of Python `str.replace`: worker with fuel (the fuel is at least
the length of the remaining text, so it never runs out). -/
def replaceAllGo (old new : Text) : Nat → Text → Text
  | 0, t => t
  | _ + 1, [] => []
  | fuel + 1, c :: cs =>
    if old.isPrefixOf (c :: cs) then
      new ++ replaceAllGo old new fuel ((c :: cs).drop old.length)
    else
      c :: replaceAllGo old new fuel cs

/-- Python `s.replace(old, new)` for a non-empty `old`: replaces every
non-overlapping occurrence, scanning left to right. -/
def replaceAll (old new t : Text) : Text := replaceAllGo old new (t.length + 1) t

/-- Worker for `replaceFirst`, with fuel. -/
def replaceFirstGo (old new : Text) : Nat → Text → Text
  | 0, t => t
  | _ + 1, [] => []
  | fuel + 1, c :: cs =>
    if old.isPrefixOf (c :: cs) then new ++ (c :: cs).drop old.length
    else c :: replaceFirstGo old new fuel cs

/-- Python `s.replace(old, new, 1)`: replaces only the first occurrence. -/
def replaceFirst (old new t : Text) : Text := replaceFirstGo old new (t.length + 1) t

/-- Python `s.count(sub)` for non-empty `sub` (non-overlapping count). -/
def countSub (needle : Text) : Nat → Text → Nat
  | 0, _ => 0
  | _ + 1, [] => 0
  | fuel + 1, c :: cs =>
    if needle.isPrefixOf (c :: cs) then
      countSub needle fuel ((c :: cs).drop needle.length) + 1
    else
      countSub needle fuel cs

/-- Splits a text on runs of whitespace, dropping empty pieces — Python
`str.split()` with no separator argument. -/
def splitWs : Text → List Text
  | [] => []
  | c :: cs =>
    if isWs c then splitWs cs
    else
      match splitWs cs with
      | [] => [[c]]
      | w :: ws => if cs.head?.any isWs then [c] :: w :: ws else (c :: w) :: ws

/-- `strip_html` (`semanticpipe.py:130`): feeds the text through the
`HTMLText` parser and joins the data segments with single spaces.  The
`html.parser.HTMLParser` machinery is modelled for plain markup — text
outside `<...>` tags forms the data segments; entity references and
malformed tags are outside the model (no input below uses them). -/
def stripSegs : Bool → Text → List Text
  | _, [] => []
  | true, c :: cs => if c == 62 then stripSegs false cs else stripSegs true cs
  | false, c :: cs =>
    if c == 60 then [] :: stripSegs true cs
    else
      match stripSegs false cs with
      | [] => [[c]]
      | s :: ss => (c :: s) :: ss

/-- Joins texts with a single-space separator — Python `' '.join`. -/
def joinSpace : List Text → Text
  | [] => []
  | [t] => t
  | t :: u :: rest => t ++ [32] ++ joinSpace (u :: rest)

def strip_html (html : Text) : Text :=
  joinSpace ((stripSegs false html).filter (fun s => !s.isEmpty))

/-- `count_words` (`semanticpipe.py:135`). -/
def count_words (html : Text) : Nat := (splitWs (strip_html html)).length

/-! ## Mojibake codec (`semanticpipe.py:221-266`) -/

/-- UTF-8 encoding of one code point below `0x10000` (all code points the
mojibake map scans are below `0x2150`). -/
def utf8Encode (cp : Nat) : List Nat :=
  if cp < 0x80 then [cp]
  else if cp < 0x800 then [0xC0 + cp / 64, 0x80 + cp % 64]
  else [0xE0 + cp / 4096, 0x80 + (cp / 64) % 64, 0x80 + cp % 64]

/-- Windows-1252 decoding of one byte: `none` for the five undefined bytes
(`0x81`, `0x8D`, `0x8F`, `0x90`, `0x9D`, which make Python `bytes.decode('cp1252')`
raise `UnicodeDecodeError`); bytes `0x80-0x9F` map to their cp1252 code
points, everything else is Latin-1 identity. -/
def cp1252Byte (b : Nat) : Option Nat :=
  if b == 0x80 then some 0x20AC
  else if b == 0x82 then some 0x201A
  else if b == 0x83 then some 0x0192
  else if b == 0x84 then some 0x201E
  else if b == 0x85 then some 0x2026
  else if b == 0x86 then some 0x2020
  else if b == 0x87 then some 0x2021
  else if b == 0x88 then some 0x02C6
  else if b == 0x89 then some 0x2030
  else if b == 0x8A then some 0x0160
  else if b == 0x8B then some 0x2039
  else if b == 0x8C then some 0x0152
  else if b == 0x8E then some 0x017D
  else if b == 0x91 then some 0x2018
  else if b == 0x92 then some 0x2019
  else if b == 0x93 then some 0x201C
  else if b == 0x94 then some 0x201D
  else if b == 0x95 then some 0x2022
  else if b == 0x96 then some 0x2013
  else if b == 0x97 then some 0x2014
  else if b == 0x98 then some 0x02DC
  else if b == 0x99 then some 0x2122
  else if b == 0x9A then some 0x0161
  else if b == 0x9B then some 0x203A
  else if b == 0x9C then some 0x0153
  else if b == 0x9E then some 0x017E
  else if b == 0x9F then some 0x0178
  else if b == 0x81 || b == 0x8D || b == 0x8F || b == 0x90 || b == 0x9D then none
  else some b

/-- Windows-1252 decoding of a byte list, failing if any byte is undefined. -/
def cp1252Decode : List Nat → Option Text
  | [] => some []
  | b :: bs => do
    let c ← cp1252Byte b
    let rest ← cp1252Decode bs
    pure (c :: rest)

/-- The Unicode ranges scanned by `build_mojibake_map`
(`semanticpipe.py:229-235`), in source order. -/
def mojibakeRanges : List (Nat × Nat) :=
  [(0x0080, 0x0100), (0x0100, 0x0250), (0x2000, 0x2070), (0x20A0, 0x20D0), (0x2100, 0x2150)]

/-- One entry of the mojibake map: for code point `cp`, the cp1252 misreading
of its UTF-8 bytes, when that decoding is defined and differs from the
character itself (`semanticpipe.py:238-244`). -/
def mojibakeEntry (cp : Nat) : Option (Text × Text) :=
  match cp1252Decode (utf8Encode cp) with
  | none => none
  | some mangled => if mangled == [cp] then none else some (mangled, [cp])

/-- Scans `count` code points upward from `lo`, keeping the defined mojibake
entries in ascending order. -/
def mojibakeScan (lo : Nat) : Nat → List (Text × Text)
  | 0 => []
  | n + 1 =>
    match mojibakeEntry lo with
    | some e => e :: mojibakeScan (lo + 1) n
    | none => mojibakeScan (lo + 1) n

/-- Concatenates the scans of a list of half-open ranges, in order. -/
def mojibakeScanRanges : List (Nat × Nat) → List (Text × Text)
  | [] => []
  | r :: rs => mojibakeScan r.1 (r.2 - r.1) ++ mojibakeScanRanges rs

/-- `build_mojibake_map` (`semanticpipe.py:221-246`): the association list of
(corrupted form, original character), in Python dict insertion order (the
ranges in order, code points ascending).  No two code points produce the same
corrupted form, so the dict is faithfully an association list. -/
def build_mojibake_map : List (Text × Text) :=
  mojibakeScanRanges mojibakeRanges

/-- Stable merge of two runs already sorted by the boolean relation `le`
(ties and equal keys take the left run first, preserving original order).
Tail-recursive with an accumulator; the fuel is at least the total length. -/
def mergeBy (le : Text → Text → Bool) : Nat → List Text → List Text → List Text → List Text
  | 0, acc, xs, ys => acc.reverse ++ xs ++ ys
  | _ + 1, acc, [], ys => acc.reverse ++ ys
  | _ + 1, acc, xs, [] => acc.reverse ++ xs
  | fuel + 1, acc, x :: xs, y :: ys =>
    if le x y then mergeBy le fuel (x :: acc) xs (y :: ys)
    else mergeBy le fuel (y :: acc) (x :: xs) ys

/-- One bottom-up merge pass over adjacent runs. -/
def mergePass (le : Text → Text → Bool) : List (List Text) → List (List Text) → List (List Text)
  | acc, [] => acc.reverse
  | acc, [r] => acc.reverse ++ [r]
  | acc, r :: s :: rest => mergePass le (mergeBy le (r.length + s.length) [] r s :: acc) rest

/-- Repeats merge passes until one run remains. -/
def mergeRuns (le : Text → Text → Bool) : Nat → List (List Text) → List Text
  | 0, rs => rs.flatten
  | _ + 1, [] => []
  | _ + 1, [r] => r
  | fuel + 1, rs => mergeRuns le fuel (mergePass le [] rs)

/-- Stable sort by the boolean relation `le`.  Python `sorted` is Timsort, a
stable merge sort; a stable sort is determined up to equality by its key
order and stability, so this bottom-up stable merge sort computes exactly
the same list. -/
def stableSortBy (le : Text → Text → Bool) (l : List Text) : List Text :=
  mergeRuns le (l.length + 1) (l.map (fun x => [x]))

/-- `MOJIBAKE_KEYS_SORTED` (`semanticpipe.py:251`): the corrupted forms
sorted longest-first (`sorted(keys, key=len, reverse=True)`), stably. -/
def mojibakeKeysSorted : List Text :=
  stableSortBy (fun a b => b.length ≤ a.length) (build_mojibake_map.map Prod.fst)

/-- Dict lookup in the mojibake map. -/
def mojibakeLookup (bad : Text) : Text :=
  match build_mojibake_map.find? (fun e => e.1 == bad) with
  | some e => e.2
  | none => []

/-- The loop of `fix_mojibake` over the sorted corrupted forms: replaces
every occurrence of each form present and accumulates the occurrence
count. -/
def fixMojibakeGo (content : Text) (count : Nat) : List Text → Text × Nat
  | [] => (content, count)
  | bad :: rest =>
    if containsSub bad content then
      fixMojibakeGo (replaceAll bad (mojibakeLookup bad) content)
        (count + countSub bad (content.length + 1) content) rest
    else
      fixMojibakeGo content count rest

/-- `fix_mojibake` (`semanticpipe.py:253-266`): for each corrupted form, in
longest-first order, replaces every occurrence and accumulates the
occurrence count.  Returns the repaired text and the total fix count (the
change log holds one entry iff the count is positive). -/
def fix_mojibake (content : Text) : Text × Nat :=
  fixMojibakeGo content 0 mojibakeKeysSorted

/-! ## Change log entries

The source accumulates human-readable change strings; each constructor
below models one of the f-string templates, carrying its variable parts
(`semanticpipe.py` lines 265, 298, 424, 733, 739, 761, 766, 770, 773, 776).
-/

inductive Change where
  | fixedMojibake (count : Nat)
  | titleTrimmed (oldLen newLen : Nat)
  | excerptTrimmed (oldLen newLen : Nat)
  | replacedBanned (phrase replacement : Text)
  | addedBodyLink (slug : Text)
  | computedScores
  | setWordCount (wc : Nat)
  | setReadingTime (rt : Text)
  | setArticleType (t : Text)
  | setPageType
deriving DecidableEq, Repr

/-! ## Title and excerpt trimmers (`semanticpipe.py:164-213`) -/

/-- The separators tried by `trim_title`, in order. -/
def titleSeps : List Text := [ofStr ": ", ofStr " — ", ofStr " - ", ofStr " | "]

/-- The inner word-accumulation loop of `trim_title` strategy 1: greedily
keeps words of the subtitle while `main + sep + joined` still fits, stopping
at the first word that does not fit. -/
def takeWordsFit (main sep : Text) (maxLen : Nat) (acc : List Text) : List Text → List Text
  | [] => acc
  | w :: ws =>
    if (main ++ sep ++ joinSpace (acc ++ [w])).length ≤ maxLen then
      takeWordsFit main sep maxLen (acc ++ [w]) ws
    else acc

/-- Strategy 1 of `trim_title`: for each separator present in the title, cut
the subtitle (or shorten it word by word); a separator whose `available`
budget is 10 or less falls through to the next separator. -/
def trimTitleSeps (title : Text) (maxLen : Nat) : List Text → Option Text
  | [] => none
  | sep :: rest =>
    if containsSub sep title then
      let main := beforeFirst sep title
      let sub := (fromFirst sep title).drop sep.length
      if main.length ≤ maxLen && 25 ≤ main.length then some main
      else if main.length + sep.length + 10 < maxLen then
        let shortened := takeWordsFit main sep maxLen [] (splitWs sub)
        if shortened.isEmpty then some (main.take maxLen)
        else some (main ++ sep ++ joinSpace shortened)
      else trimTitleSeps title maxLen rest
    else trimTitleSeps title maxLen rest

/-- Strategy 2 of `trim_title`: pops words from the end while the join is too
long and more than 3 words remain. -/
def popWhileLong (maxLen : Nat) : Nat → List Text → List Text
  | 0, ws => ws
  | fuel + 1, ws =>
    if maxLen < (joinSpace ws).length && 3 < ws.length then
      popWhileLong maxLen fuel ws.dropLast
    else ws

/-- `trim_title` (`semanticpipe.py:164-192`) with `max_len = 60`. -/
def trim_title (title : Text) : Text :=
  if title.length ≤ 60 then title
  else
    match trimTitleSeps title 60 titleSeps with
    | some r => r
    | none =>
      let words := splitWs title
      joinSpace (popWhileLong 60 words.length words)

/-- Python `s.rfind(c)` for a single character, as an optional index. -/
def rfindIdx (c : Nat) (t : Text) : Option Nat :=
  match (t.reverse.findIdx? (· == c)) with
  | some i => some (t.length - 1 - i)
  | none => none

/-- Python `s.rstrip(",;:")`. -/
def rstripPunct (t : Text) : Text :=
  (t.reverse.dropWhile (fun c => c == 44 || c == 59 || c == 58)).reverse

/-- The word-boundary fallback of `trim_excerpt` (cut at the last space
above index 80, patch the trailing punctuation; otherwise hard-cut). -/
def trimExcerptSpace (truncated : Text) : Text :=
  match rfindIdx 32 truncated with
  | some q =>
    if 80 < q then
      let result := truncated.take q
      if result.getLast? == some 46 then result else rstripPunct result ++ [46]
    else truncated.take 154 ++ [46]
  | none => truncated.take 154 ++ [46]

/-- `trim_excerpt` (`semanticpipe.py:197-213`) with `max_len = 155`. -/
def trim_excerpt (excerpt : Text) : Text :=
  if excerpt.length ≤ 155 then excerpt
  else
    let truncated := excerpt.take 155
    match rfindIdx 46 truncated with
    | some p =>
      if 80 < p then truncated.take (p + 1)
      else trimExcerptSpace truncated
    | none => trimExcerptSpace truncated

/-! ## Banned phrase rewriter (`semanticpipe.py:84-118`, `268-300`) -/

/-- `BANNED_PHRASES` (`semanticpipe.py:84-90`).  Apostrophes (code point 39)
are spliced in explicitly. -/
def BANNED_PHRASES : List Text :=
  [ofStr "journey", ofStr "unlock", ofStr "game-changer", ofStr "dive in",
   ofStr "explore the depths", ofStr "delve", ofStr "realm", ofStr "furthermore",
   ofStr "in conclusion", ofStr "nestled",
   ofStr "it" ++ [39] ++ ofStr "s important to note",
   ofStr "in today" ++ [39] ++ ofStr "s world",
   ofStr "it should be noted", ofStr "needless to say", ofStr "as we all know",
   ofStr "without further ado", ofStr "spine-tingling", ofStr "bone-chilling",
   ofStr "hair-raising", ofStr "reportedly haunted"]

/-- `BANNED_REPLACEMENTS` (`semanticpipe.py:93-118`), as an association
list in source order. -/
def BANNED_REPLACEMENTS : List (Text × Text) :=
  [(ofStr "journey", ofStr "path"),
   (ofStr "unlock", ofStr "reveal"),
   (ofStr "unlocked", ofStr "opened"),
   (ofStr "unlocking", ofStr "revealing"),
   (ofStr "game-changer", ofStr "turning point"),
   (ofStr "dive in", ofStr "begin"),
   (ofStr "explore the depths", ofStr "examine the details"),
   (ofStr "delve", ofStr "examine"),
   (ofStr "delves", ofStr "examines"),
   (ofStr "delving", ofStr "examining"),
   (ofStr "realm", ofStr "domain"),
   (ofStr "furthermore", ofStr "additionally"),
   (ofStr "in conclusion", ofStr "ultimately"),
   (ofStr "nestled", ofStr "situated"),
   (ofStr "it" ++ [39] ++ ofStr "s important to note", ofStr "notably"),
   (ofStr "in today" ++ [39] ++ ofStr "s world", ofStr "today"),
   (ofStr "it should be noted", ofStr "notably"),
   (ofStr "needless to say", ofStr "clearly"),
   (ofStr "as we all know", ofStr "as documented"),
   (ofStr "without further ado", []),
   (ofStr "spine-tingling", ofStr "unsettling"),
   (ofStr "bone-chilling", ofStr "disturbing"),
   (ofStr "hair-raising", ofStr "unsettling"),
   (ofStr "reportedly haunted", ofStr "said to be haunted")]

/-- `BANNED_REPLACEMENTS.get(phrase, '')`. -/
def bannedReplacement (phrase : Text) : Text :=
  match BANNED_REPLACEMENTS.find? (fun e => e.1 == phrase) with
  | some e => e.2
  | none => []

/-- True when the previous character admits a `\b` boundary before a word
character (start of text or a non-word character). -/
def prevBoundary : Option Nat → Bool
  | none => true
  | some c => !isWord c

/-- True when a `\b` boundary holds after a word character, given the rest
of the text (end of text or a non-word character next). -/
def nextBoundary : Text → Bool
  | [] => true
  | c :: _ => !isWord c

/-- Whether `\b phrase \b` matches (case-insensitively) at the head of `s`,
`prev` being the character before `s`.  Every banned phrase starts and ends
with a letter, so the boundaries reduce to non-word neighbours. -/
def matchBoundedCI (phrase : Text) (prev : Option Nat) (s : Text) : Bool :=
  prevBoundary prev && isPrefixCI phrase s && nextBoundary (s.drop phrase.length)

/-- `re.search(r'\b' + phrase + r'\b', text, re.I)` as a Boolean. -/
def searchBoundedCIGo (phrase : Text) (prev : Option Nat) : Text → Bool
  | [] => false
  | c :: cs => matchBoundedCI phrase prev (c :: cs) || searchBoundedCIGo phrase (some c) cs

def searchBoundedCI (phrase : Text) (t : Text) : Bool :=
  searchBoundedCIGo phrase none t

/-- The replacement function of `fix_banned_phrases` (`replace_match`,
`semanticpipe.py:288-292`): if the first matched character is uppercase and
the replacement is non-empty, capitalize the replacement. -/
def capitalizeIf (firstMatched : Nat) (repl : Text) : Text :=
  match repl with
  | [] => []
  | r :: rs => if isUpper firstMatched then upperChar r :: rs else r :: rs

/-- `re.sub(r'\b' + phrase + r'\b', replace_match, body, flags=re.I)`:
replaces every non-overlapping match, scanning left to right. -/
def subBoundedCIGo (phrase repl : Text) : Nat → Option Nat → Text → Text
  | 0, _, s => s
  | _ + 1, _, [] => []
  | fuel + 1, prev, c :: cs =>
    if matchBoundedCI phrase prev (c :: cs) then
      capitalizeIf c repl ++
        subBoundedCIGo phrase repl fuel (((c :: cs).take phrase.length).getLast? )
          ((c :: cs).drop phrase.length)
    else
      c :: subBoundedCIGo phrase repl fuel (some c) cs

def subBoundedCI (phrase repl t : Text) : Text :=
  subBoundedCIGo phrase repl (t.length + 1) none t

/-- The per-phrase loop body of `fix_banned_phrases`: `bodyPlainLower` is the
lowercased plain text of the *original* body (computed once, before the
loop, at `semanticpipe.py:281`). -/
def fbpLoop (bodyPlainLower : Text) (body : Text) (changes : List Change) :
    List Text → Text × List Change
  | [] => (body, changes)
  | phrase :: rest =>
    if searchBoundedCI phrase bodyPlainLower then
      let replacement := bannedReplacement phrase
      let newBody := subBoundedCI phrase replacement body
      if newBody ≠ body then
        fbpLoop bodyPlainLower newBody (changes ++ [Change.replacedBanned phrase replacement]) rest
      else fbpLoop bodyPlainLower body changes rest
    else fbpLoop bodyPlainLower body changes rest

/-- The thematic-break marker `"<hr"`. -/
def hrMark : Text := ofStr "<hr"

/-! ## Regex scanners

Each `re.findall`/`re.finditer` call of the source is embedded as a
head-matcher (`Text → Option (consumed length × result)`) driven by a
generic scanner with Python `re` semantics: leftmost scan, non-overlapping
matches, resuming right after each match. -/

/-- Generic findall driver: tries the head matcher at every position,
skipping the consumed length on a match.  Fuel is at least the text
length, so it never runs out. -/
def scanA (m : Text → Option (Nat × α)) : Nat → Text → List α
  | 0, _ => []
  | _ + 1, [] => []
  | fuel + 1, c :: cs =>
    match m (c :: cs) with
    | some (len, a) => a :: scanA m fuel ((c :: cs).drop (max len 1))
    | none => scanA m fuel cs

def findall (m : Text → Option (Nat × α)) (t : Text) : List α :=
  scanA m (t.length + 1) t

/-- A quote character, the class `["\']`. -/
def isQuote (c : Nat) : Bool := c == 34 || c == 39

/-- Matches a literal, returning the rest. -/
def matchLit (lit s : Text) : Option Text :=
  if lit.isPrefixOf s then some (s.drop lit.length) else none

/-- The lazy slug part `([^"\']+?)/["\']` — the shortest non-empty run of
non-quote characters followed by `/` and a quote.  Walks forward, matching
as soon as possible, failing on a quote. -/
def lazySlugGo (acc : Text) : Text → Option Text
  | [] => none
  | c :: cs =>
    if isQuote c then none
    else if c == 47 && cs.head?.any isQuote && !acc.isEmpty then some acc.reverse
    else lazySlugGo (c :: acc) cs

/-- Head matcher for `href=["\'](?:/articles/([^"\']+?)/)["\']`
(`semanticpipe.py:307`, `572`, `625`, `807-808`): captures the slug. -/
def matchArticleSlug (s : Text) : Option (Nat × Text) := do
  let r1 ← matchLit (ofStr "href=") s
  match r1 with
  | q :: r2 =>
    if isQuote q then do
      let r3 ← matchLit (ofStr "/articles/") r2
      let slug ← lazySlugGo [] r3
      pure (5 + 1 + 10 + slug.length + 2, slug)
    else none
  | [] => none

/-- Head matcher for the greedy `href=["\'](?:/articles/[^"\']+)["\']`
(`semanticpipe.py:356-358`, `561`): a maximal non-empty run of non-quote
characters after `/articles/`, then a quote. -/
def matchArticleLink (s : Text) : Option (Nat × Unit) := do
  let r1 ← matchLit (ofStr "href=") s
  match r1 with
  | q :: r2 =>
    if isQuote q then do
      let r3 ← matchLit (ofStr "/articles/") r2
      let run := r3.takeWhile (fun c => !isQuote c)
      if run.isEmpty then none
      else if (r3.drop run.length).head?.any isQuote then
        pure (5 + 1 + 10 + run.length + 1, ())
      else none
    else none
  | [] => none

/-- Candidate cut points for the greedy `[^"\']*` before `ghost-tours/["\']`:
positions reachable through non-quote characters where the literal tail
matches.  The regex takes the greediest (largest). -/
def ghostCandidates (pos : Nat) : Text → List Nat
  | [] => []
  | c :: cs =>
    (if (ofStr "ghost-tours/").isPrefixOf (c :: cs) &&
        ((c :: cs).drop 12).head?.any isQuote then [pos] else []) ++
    (if isQuote c then [] else ghostCandidates (pos + 1) cs)

/-- The `/[^"\']*ghost-tours/["\']` branch, on the text after the opening
quote: a leading `/`, then the greediest candidate cut. -/
def matchHubGhost (r2 : Text) : Option (Nat × Unit) :=
  match r2 with
  | c :: r3 =>
    if c == 47 then
      match (ghostCandidates 0 r3).getLast? with
      | some k => some (5 + 1 + 1 + k + 12 + 1, ())
      | none => none
    else none
  | [] => none

/-- Head matcher for `href=["\'](?:/blog/[^"\']+|/[^"\']*ghost-tours/)["\']`
(`semanticpipe.py:562`): the `/blog/` branch first, then the greedy
ghost-tours branch. -/
def matchHubLink (s : Text) : Option (Nat × Unit) := do
  let r1 ← matchLit (ofStr "href=") s
  match r1 with
  | q :: r2 =>
    if isQuote q then
      match matchLit (ofStr "/blog/") r2 with
      | some r3 =>
        let run := r3.takeWhile (fun c => !isQuote c)
        if !run.isEmpty && (r3.drop run.length).head?.any isQuote then
          some (5 + 1 + 6 + run.length + 1, ())
        else matchHubGhost r2
      | none => matchHubGhost r2
    else none
  | [] => none

/-- Head matcher for `href=["\']([^"\']+)["\']` (`semanticpipe.py:568`):
captures the full link target. -/
def matchAnyHref (s : Text) : Option (Nat × Text) := do
  let r1 ← matchLit (ofStr "href=") s
  match r1 with
  | q :: r2 =>
    if isQuote q then
      let run := r2.takeWhile (fun c => !isQuote c)
      if !run.isEmpty && (r2.drop run.length).head?.any isQuote then
        some (5 + 1 + run.length + 1, run)
      else none
    else none
  | [] => none

/-- The shortest prefix before an occurrence of `stop` (a lazy `(.*?)stop`),
with its length; `none` when `stop` never occurs. -/
def lazyUntil (stop : Text) : Nat → Text → Option (Text × Nat)
  | 0, _ => none
  | fuel + 1, s =>
    if stop.isPrefixOf s then some ([], 0)
    else
      match s with
      | [] => none
      | c :: cs =>
        match lazyUntil stop fuel cs with
        | some (t, n) => some (c :: t, n + 1)
        | none => none

/-- Head matcher for `<p>(.*?)</p>` with `re.DOTALL`
(`semanticpipe.py:320`, `369`, `383`): yields (inner text, full match). -/
def matchPBlock (s : Text) : Option (Nat × (Text × Text)) := do
  let r1 ← matchLit (ofStr "<p>") s
  let (inner, n) ← lazyUntil (ofStr "</p>") (r1.length + 1) r1
  pure (3 + n + 4, (inner, ofStr "<p>" ++ inner ++ ofStr "</p>"))

/-- All `<p>...</p>` blocks of a text. -/
def pBlocks (t : Text) : List (Text × Text) := findall matchPBlock t

/-- `get_existing_link_targets` (`semanticpipe.py:305-307`): the slugs
already linked.  The Python `set` is kept as the raw occurrence list; only
membership is ever used. -/
def get_existing_link_targets (html : Text) : List Text :=
  findall matchArticleSlug html

/-- `find_linkable_paragraphs` (`semanticpipe.py:309-334`): paragraphs
before the thematic break with no link and at least 40 plain words. -/
def find_linkable_paragraphs (bodyHtml : Text) : List (Text × Text) :=
  let body := if containsSub hrMark bodyHtml then beforeFirst hrMark bodyHtml else bodyHtml
  (pBlocks body).filter (fun p =>
    !containsSub (ofStr "<a ") p.1 && 40 ≤ (splitWs (strip_html p.1)).length)

/-- The separator class `[-—|:]` of `build_anchor_text`. -/
def anchorSep (c : Nat) : Bool := c == 45 || c == 0x2014 || c == 124 || c == 58

/-- The keyword alternation of `build_anchor_text`. -/
def anchorKeywords : List Text :=
  [ofStr "Haunted", ofStr "Ghost", ofStr "Dark", ofStr "True", ofStr "Complete"]

/-- Whether `\s*[-—|:]\s*(Haunted|Ghost|Dark|True|Complete)` matches (case
insensitively) at the head of `s`. -/
def matchAnchorTail (s : Text) : Bool :=
  match s.dropWhile isWs with
  | [] => false
  | c :: cs =>
    anchorSep c && anchorKeywords.any (fun k => isPrefixCI k (cs.dropWhile isWs))

/-- The leftmost index at which the anchor-tail pattern matches. -/
def anchorCutIdx (pos : Nat) : Text → Option Nat
  | [] => none
  | c :: cs => if matchAnchorTail (c :: cs) then some pos else anchorCutIdx (pos + 1) cs

/-- `build_anchor_text` (`semanticpipe.py:336-344`) with `max_words = 6`:
drops the suffix matched by `\s*[-—|:]\s*(Haunted|Ghost|Dark|True|Complete).*$`
(re.I), then lowercases, keeping at most 6 words. -/
def build_anchor_text (siblingTitle : Text) : Text :=
  let title :=
    match anchorCutIdx 0 siblingTitle with
    | some i => siblingTitle.take i
    | none => siblingTitle
  let words := splitWs title
  if words.length ≤ 6 then lowerText title
  else lowerText (joinSpace (words.take 6))

/-- An ASCII letter. -/
def isAlpha (c : Nat) : Bool := isUpper c || isLower c

/-- Python `str.title()` (ASCII model): a letter after a non-letter is
uppercased, a letter after a letter lowercased. -/
def titleCaseGo (prevAlpha : Bool) : Text → Text
  | [] => []
  | c :: cs =>
    (if isAlpha c then (if prevAlpha then lowerChar c else upperChar c) else c) ::
      titleCaseGo (isAlpha c) cs

def titleCase (t : Text) : Text := titleCaseGo false t

/-- `slug_to_title.get(sib_slug, sib_slug.replace('-', ' ').title())`
(`semanticpipe.py:409`). -/
def siblingTitleOf (slugToTitle : List (Text × Text)) (sib : Text) : Text :=
  match slugToTitle.find? (fun e => e.1 == sib) with
  | some e => e.2
  | none => titleCase (replaceAll [45] [32] sib)

/-- One planned insertion: (paragraph as matched, rewritten paragraph,
sibling slug). -/
def mkInsertion (slugToTitle : List (Text × Text)) (p : Text × Text) (sib : Text) :
    Text × Text × Text :=
  let anchor := build_anchor_text (siblingTitleOf slugToTitle sib)
  let linkHtml :=
    ofStr " For related history, see our <a href=\"/articles/" ++ sib ++ ofStr "/\">" ++
      anchor ++ ofStr "</a>."
  (p.2, replaceAll (ofStr "</p>") (linkHtml ++ ofStr "</p>") p.2, sib)

/-- The application loop of `insert_sibling_links` (`semanticpipe.py:421-424`):
applies the insertions in reverse order, replacing only the first occurrence,
recording one change per applied insertion. -/
def applyInsertions (content : Text) (changes : List Change) :
    List (Text × Text × Text) → Text × List Change
  | [] => (content, changes)
  | (oldPara, newPara, sib) :: rest =>
    if containsSub oldPara content then
      applyInsertions (replaceFirst oldPara newPara content)
        (changes ++ [Change.addedBodyLink sib]) rest
    else applyInsertions content changes rest

/-- `insert_sibling_links` (`semanticpipe.py:346-426`).  The unused
parameters `cat_slug` and `all_slugs` of the source are kept. -/
def insert_sibling_links (content slug _catSlug : Text) (siblings : List Text)
    (slugToTitle : List (Text × Text)) (_allSlugs : List Text) : Text × List Change :=
  let bodyBeforeHr := if containsSub hrMark content then beforeFirst hrMark content else content
  let existingTargets := get_existing_link_targets bodyBeforeHr
  let availableSiblings := siblings.filter (fun s => s ≠ slug && !existingTargets.contains s)
  let currentBodyLinks := findall matchArticleLink bodyBeforeHr
  let needed := 3 - currentBodyLinks.length
  if needed == 0 then (content, [])
  else
    let body := if containsSub hrMark content then beforeFirst hrMark content else content
    let candidates0 := find_linkable_paragraphs content
    let candidates1 :=
      if candidates0.isEmpty then
        (pBlocks body).filter (fun p =>
          !containsSub (ofStr "<a ") p.1 && 15 ≤ (splitWs (strip_html p.1)).length)
      else candidates0
    let candidates :=
      if candidates1.isEmpty && 0 < needed then
        (pBlocks body).filter (fun p =>
          countSub (ofStr "<a ") (p.1.length + 1) p.1 ≤ 1 &&
            50 ≤ (splitWs (strip_html p.1)).length)
      else candidates1
    let selected :=
      if needed < candidates.length then
        let step := max 1 (candidates.length / (needed + 1))
        (List.range needed).map (fun i =>
          candidates.getD (min ((i + 1) * step) (candidates.length - 1)) ([], []))
      else candidates.take needed
    let insertions := (selected.zip availableSiblings).map
      (fun pr => mkInsertion slugToTitle pr.1 pr.2)
    applyInsertions content [] insertions.reverse

/-- `fix_banned_phrases` (`semanticpipe.py:268-300`): splits at the first
`<hr`, rewrites banned phrases in the body only, and reattaches the footer
unchanged. -/
def fix_banned_phrases (content : Text) : Text × List Change :=
  let body := if containsSub hrMark content then beforeFirst hrMark content else content
  let footer := if containsSub hrMark content then fromFirst hrMark content else []
  let bodyPlainLower := lowerText (strip_html body)
  let r := fbpLoop bodyPlainLower body [] BANNED_PHRASES
  (r.1 ++ footer, r.2)

/-! ## Semantic scorer (`semanticpipe.py:431-494`) and the audit tool year
counter (`audit.py:62-64`) -/

/-- A findall driver for patterns beginning with `\b`: like `scanA` but
tracking the previous character for the boundary test. -/
def scanB (m : Option Nat → Text → Option (Nat × α)) : Nat → Option Nat → Text → List α
  | 0, _, _ => []
  | _ + 1, _, [] => []
  | fuel + 1, prev, c :: cs =>
    match m prev (c :: cs) with
    | some (len, a) =>
      a :: scanB m fuel (((c :: cs).take (max len 1)).getLast?) ((c :: cs).drop (max len 1))
    | none => scanB m fuel (some c) cs

def findallB (m : Option Nat → Text → Option (Nat × α)) (t : Text) : List α :=
  scanB m (t.length + 1) none t

/-- `[A-Z][a-z]+`: an uppercase letter followed by a maximal non-empty
lowercase run; returns the consumed length. -/
def capWord : Text → Option Nat
  | c :: cs =>
    if isUpper c then
      let r := cs.takeWhile isLower
      if r.isEmpty then none else some (1 + r.length)
    else none
  | [] => none

/-- `[A-Z][a-z]{2,}`: as `capWord` but requiring at least two lowercase
letters. -/
def capWord2 : Text → Option Nat
  | c :: cs =>
    if isUpper c then
      let r := cs.takeWhile isLower
      if r.length < 2 then none else some (1 + r.length)
    else none
  | [] => none

/-- `\s+`: a maximal non-empty whitespace run; returns its length. -/
def ws1 (s : Text) : Option Nat :=
  let r := s.takeWhile isWs
  if r.isEmpty then none else some r.length

/-- The connective alternation of the entity pattern
(`of|the|and|de|du|la|le|von|van`): pairwise non-prefix literals, so at most
one matches. -/
def entityConns : List Text :=
  [ofStr "of", ofStr "the", ofStr "and", ofStr "de", ofStr "du",
   ofStr "la", ofStr "le", ofStr "von", ofStr "van"]

def connAt (s : Text) : Option Nat :=
  (entityConns.find? (fun k => k.isPrefixOf s)).map (fun k => k.length)

/-- Endpoints of the greedy star `(?:\s+[A-Z][a-z]+)*`: the cumulative
consumed lengths (and rests) after 1, 2, ... iterations, in order. -/
def starEnds (acc : Nat) : Nat → Text → List (Nat × Text)
  | 0, _ => []
  | fuel + 1, s =>
    match ws1 s with
    | some w =>
      match capWord (s.drop w) with
      | some cw =>
        let tot := acc + w + cw
        (tot, s.drop (w + cw)) :: starEnds tot fuel (s.drop (w + cw))
      | none => []
    | none => []

/-- After the second word of the entity pattern: run the greedy star, then
backtrack from the longest endpoint to satisfy the trailing `\b`. -/
def entityTail (len2 : Nat) (rest2 : Text) : Option Nat :=
  let ends := (len2, rest2) :: starEnds len2 (rest2.length + 1) rest2
  (ends.reverse.find? (fun e => nextBoundary e.2)).map (fun e => e.1)

/-- Head matcher for the entity pattern (`semanticpipe.py:441`):
`\b([A-Z][a-z]+(?:\s+(?:of|the|and|de|du|la|le|von|van)\s+)?[A-Z][a-z]+(?:\s+[A-Z][a-z]+)*)\b`.
When the optional connective group succeeds through the second word but the
tail fails, the no-connective parse would start at whitespace and fail too,
so no cross-branch backtracking arises. -/
def matchEntity (prev : Option Nat) (s : Text) : Option (Nat × Text) :=
  if !prevBoundary prev then none
  else
    match capWord s with
    | none => none
    | some w1 =>
      let afterW1 := s.drop w1
      let withConn : Option Nat :=
        match ws1 afterW1 with
        | some a =>
          match connAt (afterW1.drop a) with
          | some cl =>
            match ws1 (afterW1.drop (a + cl)) with
            | some b =>
              match capWord (afterW1.drop (a + cl + b)) with
              | some w2 => some (a + cl + b + w2)
              | none => none
            | none => none
          | none => none
        | none => none
      let second : Option Nat :=
        match withConn with
        | some k => some k
        | none => capWord afterW1
      match second with
      | some k =>
        match entityTail (w1 + k) (afterW1.drop k) with
        | some tot => some (tot, s.take tot)
        | none => none
      | none => none

/-- The non-name leading words filtered out of the people heuristic
(`semanticpipe.py:462`). -/
def badNameWords : List Text :=
  [ofStr "The ", ofStr "This ", ofStr "That ", ofStr "These ", ofStr "Those ",
   ofStr "When ", ofStr "Where ", ofStr "What ", ofStr "Which ", ofStr "Their "]

/-- The optional third word and trailing `\b` of the people pattern:
include the third word greedily when the boundary after it holds; dropping
it always leaves a boundary (the whitespace that began it). -/
def peopleTail (consumed : Nat) (rest : Text) : Option Nat :=
  match ws1 rest with
  | some a =>
    match capWord2 (rest.drop a) with
    | some w3 =>
      if nextBoundary (rest.drop (a + w3)) then some (consumed + a + w3)
      else some consumed
    | none => if nextBoundary rest then some consumed else none
  | none => if nextBoundary rest then some consumed else none

/-- Head matcher for the people pattern (`semanticpipe.py:459`):
`\b([A-Z][a-z]{2,}\s+(?:[A-Z]\.?\s+)?[A-Z][a-z]{2,}(?:\s+[A-Z][a-z]{2,})?)\b`.
The middle-initial alternatives (with dot, without dot, absent) are mutually
exclusive past the character after the initial, so they are tried in regex
order as a cascade. -/
def matchPerson (prev : Option Nat) (s : Text) : Option (Nat × Text) :=
  if !prevBoundary prev then none
  else
    match capWord2 s with
    | none => none
    | some w1 =>
      let afterW1 := s.drop w1
      match ws1 afterW1 with
      | none => none
      | some a =>
        let rest := afterW1.drop a
        let middleDot : Option Nat :=
          match rest with
          | c :: c2 :: r2 =>
            if isUpper c && c2 == 46 then
              match ws1 r2 with
              | some b =>
                match capWord2 (r2.drop b) with
                | some w2 => some (2 + b + w2)
                | none => none
              | none => none
            else none
          | _ => none
        let middleBare : Option Nat :=
          match rest with
          | c :: r2 =>
            if isUpper c then
              match ws1 r2 with
              | some b =>
                match capWord2 (r2.drop b) with
                | some w2 => some (1 + b + w2)
                | none => none
              | none => none
            else none
          | [] => none
        let noMiddle : Option Nat := capWord2 rest
        let viaMiddle (k : Nat) : Option Nat :=
          peopleTail (w1 + a + k) (rest.drop k)
        let attempt : Option Nat :=
          match middleDot with
          | some k =>
            match viaMiddle k with
            | some tot => some tot
            | none => none
          | none =>
            match middleBare with
            | some k =>
              match viaMiddle k with
              | some tot => some tot
              | none =>
                match noMiddle with
                | some k2 => viaMiddle k2
                | none => none
            | none =>
              match noMiddle with
              | some k2 => viaMiddle k2
              | none => none
        match attempt with
        | some tot => some (tot, s.take tot)
        | none => none

/-- The month alternation of the full-date pattern, pairwise non-prefix. -/
def monthNames : List Text :=
  [ofStr "January", ofStr "February", ofStr "March", ofStr "April", ofStr "May",
   ofStr "June", ofStr "July", ofStr "August", ofStr "September", ofStr "October",
   ofStr "November", ofStr "December"]

/-- The `\d{1,2},?\s+\d{4}\b` tail of the full-date pattern, for a fixed
day-digit count (tried greedily: 2 first, then 1). -/
def dateDayTail (rest : Text) (dlen : Nat) : Option Nat :=
  let day := rest.take dlen
  if day.length == dlen && day.all isDigit then
    let rest2 := rest.drop dlen
    let (cl, rest3) := if rest2.head? == some 44 then (1, rest2.drop 1) else (0, rest2)
    match ws1 rest3 with
    | some b =>
      let year := (rest3.drop b).take 4
      if year.length == 4 && year.all isDigit &&
          nextBoundary ((rest3.drop b).drop 4) then
        some (dlen + cl + b + 4)
      else none
    | none => none
  else none

/-- Head matcher for
`\b(?:January|...|December)\s+\d{1,2},?\s+\d{4}\b` (`semanticpipe.py:450`). -/
def matchFullDate (prev : Option Nat) (s : Text) : Option (Nat × Text) :=
  if !prevBoundary prev then none
  else
    match monthNames.find? (fun k => k.isPrefixOf s) with
    | none => none
    | some month =>
      let rest1 := s.drop month.length
      match ws1 rest1 with
      | none => none
      | some a =>
        let rest := rest1.drop a
        match dateDayTail rest 2 with
        | some k => some (month.length + a + k, s.take (month.length + a + k))
        | none =>
          match dateDayTail rest 1 with
          | some k => some (month.length + a + k, s.take (month.length + a + k))
          | none => none

/-- The unit alternation of the measurement pattern, with plural flags for
`miles?`-style optional `s`. -/
def measureUnits : List (Text × Bool) :=
  [(ofStr "feet", false), (ofStr "foot", false), (ofStr "mile", true),
   (ofStr "yard", true), (ofStr "meter", true), (ofStr "pound", true),
   (ofStr "ton", true), (ofStr "acre", true), (ofStr "square", false)]

/-- Tries one unit alternative (case-insensitively): the optional plural `s`
greedily, each variant requiring the trailing `\b`. -/
def unitAt (s : Text) (u : Text × Bool) : Option Nat :=
  if isPrefixCI u.1 s then
    let base := u.1.length
    if u.2 && (s.drop base).head?.any (fun c => eqCI c 115) && nextBoundary (s.drop (base + 1)) then
      some (base + 1)
    else if nextBoundary (s.drop base) then some base
    else none
  else none

/-- Finds the first unit alternative that matches (regex alternation
order). -/
def unitsAt (s : Text) : List (Text × Bool) → Option Nat
  | [] => none
  | u :: us =>
    match unitAt s u with
    | some k => some k
    | none => unitsAt s us

/-- Head matcher for
`\b\d+[\-\s](?:feet|foot|miles?|yards?|meters?|pounds?|tons?|acres?|square)\b`
with `re.I` (`semanticpipe.py:451`). -/
def matchMeasurement (prev : Option Nat) (s : Text) : Option (Nat × Text) :=
  if !prevBoundary prev then none
  else
    let digits := s.takeWhile isDigit
    if digits.isEmpty then none
    else
      match s.drop digits.length with
      | c :: rest =>
        if c == 45 || isWs c then
          match unitsAt rest measureUnits with
          | some k => some (digits.length + 1 + k, s.take (digits.length + 1 + k))
          | none => none
        else none
      | [] => none

/-- The street-type alternation of the address pattern, pairwise
non-prefix. -/
def streetTypes : List Text :=
  [ofStr "Street", ofStr "Avenue", ofStr "Place", ofStr "Road", ofStr "Drive",
   ofStr "Boulevard", ofStr "Lane", ofStr "Way"]

/-- Head matcher for
`\d+\s+\w+\s+(?:Street|Avenue|Place|Road|Drive|Boulevard|Lane|Way)\b`
(`semanticpipe.py:452`, no leading `\b`, case-sensitive). -/
def matchAddress (s : Text) : Option (Nat × Text) :=
  let digits := s.takeWhile isDigit
  if digits.isEmpty then none
  else
    let r1 := s.drop digits.length
    match ws1 r1 with
    | none => none
    | some a =>
      let word := (r1.drop a).takeWhile isWord
      if word.isEmpty then none
      else
        let r2 := (r1.drop a).drop word.length
        match ws1 r2 with
        | none => none
        | some b =>
          match streetTypes.find? (fun k => k.isPrefixOf (r2.drop b)) with
          | some st =>
            if nextBoundary ((r2.drop b).drop st.length) then
              let tot := digits.length + a + word.length + b + st.length
              some (tot, s.take tot)
            else none
          | none => none

/-- Head matcher for `\b\d{2,}\b` (`semanticpipe.py:453`). -/
def matchNum2 (prev : Option Nat) (s : Text) : Option (Nat × Unit) :=
  if !prevBoundary prev then none
  else
    let digits := s.takeWhile isDigit
    if digits.length < 2 then none
    else if nextBoundary (s.drop digits.length) then some (digits.length, ())
    else none

/-- Whether a 4-digit window matches the pipeline year alternation
`1[0-9]{3}|20[0-2][0-9]` (`semanticpipe.py:446`). -/
def yearAcceptPipe (a b c d : Nat) : Bool :=
  (a == 49 && isDigit b && isDigit c && isDigit d) ||
  (a == 50 && b == 48 && (48 ≤ c && c ≤ 50) && isDigit d)

/-- The Unicode decimal-digit ranges: the code points of general category
Nd (Unicode 14.0, as shipped with CPython 3.11).  Python `\d` without
`re.ASCII` matches exactly these code points, not just `[0-9]`. -/
def ndRanges : List (Nat × Nat) :=
  [(0x30, 0x39), (0x660, 0x669), (0x6F0, 0x6F9), (0x7C0, 0x7C9), (0x966,
   0x96F), (0x9E6, 0x9EF), (0xA66, 0xA6F), (0xAE6, 0xAEF), (0xB66, 0xB6F),
   (0xBE6, 0xBEF), (0xC66, 0xC6F), (0xCE6, 0xCEF), (0xD66, 0xD6F), (0xDE6,
   0xDEF), (0xE50, 0xE59), (0xED0, 0xED9), (0xF20, 0xF29), (0x1040, 0x1049),
   (0x1090, 0x1099), (0x17E0, 0x17E9), (0x1810, 0x1819), (0x1946, 0x194F),
   (0x19D0, 0x19D9), (0x1A80, 0x1A89), (0x1A90, 0x1A99), (0x1B50, 0x1B59),
   (0x1BB0, 0x1BB9), (0x1C40, 0x1C49), (0x1C50, 0x1C59), (0xA620, 0xA629),
   (0xA8D0, 0xA8D9), (0xA900, 0xA909), (0xA9D0, 0xA9D9), (0xA9F0, 0xA9F9),
   (0xAA50, 0xAA59), (0xABF0, 0xABF9), (0xFF10, 0xFF19), (0x104A0, 0x104A9),
   (0x10D30, 0x10D39), (0x11066, 0x1106F), (0x110F0, 0x110F9), (0x11136,
   0x1113F), (0x111D0, 0x111D9), (0x112F0, 0x112F9), (0x11450, 0x11459),
   (0x114D0, 0x114D9), (0x11650, 0x11659), (0x116C0, 0x116C9), (0x11730,
   0x11739), (0x118E0, 0x118E9), (0x11950, 0x11959), (0x11C50, 0x11C59),
   (0x11D50, 0x11D59), (0x11DA0, 0x11DA9), (0x16A60, 0x16A69), (0x16AC0,
   0x16AC9), (0x16B50, 0x16B59), (0x1D7CE, 0x1D7FF), (0x1E140, 0x1E149),
   (0x1E2F0, 0x1E2F9), (0x1E950, 0x1E959), (0x1FBF0, 0x1FBF9)]

/-- Python `re` `\d` without `re.ASCII`: true exactly on the Unicode
decimal digits (category Nd). -/
def isDigitU (c : Nat) : Bool :=
  ndRanges.any (fun r => r.1 ≤ c && c ≤ r.2)

/-- Whether a 4-digit window matches the audit tool year alternation
`1[4-9]\d{2}|20[0-2]\d` (`audit.py:64`).  The explicit classes `[4-9]` and
`[0-2]` are ASCII, while `\d` is the full Unicode decimal-digit class — in
contrast to the pipeline alternation, whose digit positions are all the
explicit ASCII class `[0-9]`. -/
def yearAcceptAudit (a b c d : Nat) : Bool :=
  (a == 49 && (52 ≤ b && b ≤ 57) && isDigitU c && isDigitU d) ||
  (a == 50 && b == 48 && (48 ≤ c && c ≤ 50) && isDigitU d)

/-- Head matcher for a `\b(YEAR)\b` pattern parameterized by the window
test. -/
def matchYear (accept : Nat → Nat → Nat → Nat → Bool) (prev : Option Nat) :
    Text → Option (Nat × Text)
  | a :: b :: c :: d :: rest =>
    if prevBoundary prev && accept a b c d && nextBoundary rest then
      some (4, [a, b, c, d])
    else none
  | _ => none

/-- The source-reference alternations (`semanticpipe.py:467-471`), with
`archives?` expanded to its two variants. -/
def srcPattern1 : List Text :=
  [ofStr "according to", ofStr "records show", ofStr "archive", ofStr "archives",
   ofStr "historical society", ofStr "museum", ofStr "documented", ofStr "registry",
   ofStr "commission", ofStr "National Park Service"]

def srcPattern2 : List Text :=
  [ofStr "newspaper", ofStr "journal", ofStr "court record", ofStr "testimony",
   ofStr "report", ofStr "investigation", ofStr "survey", ofStr "study", ofStr "census"]

def srcPattern3 : List Text :=
  [ofStr "historian", ofStr "researcher", ofStr "archaeologist", ofStr "professor",
   ofStr "curator", ofStr "director", ofStr "author"]

/-- `re.search(r'\b(?:alt|...)\b', text, re.I)` as a Boolean: some
alternative matches with word boundaries at some position. -/
def altSearchGo (alts : List Text) (prev : Option Nat) : Text → Bool
  | [] => false
  | c :: cs =>
    alts.any (fun k =>
      prevBoundary prev && isPrefixCI k (c :: cs) && nextBoundary ((c :: cs).drop k.length)) ||
    altSearchGo alts (some c) cs

def altSearch (alts : List Text) (t : Text) : Bool := altSearchGo alts none t

/-- Case-insensitive `lazyUntil`, for the `(.*?)</h2>` part. -/
def lazyUntilCI (stop : Text) : Nat → Text → Option (Text × Nat)
  | 0, _ => none
  | fuel + 1, s =>
    if isPrefixCI stop s then some ([], 0)
    else
      match s with
      | [] => none
      | c :: cs =>
        match lazyUntilCI stop fuel cs with
        | some (t, n) => some (c :: t, n + 1)
        | none => none

/-- Head matcher for `<h2[^>]*>(.*?)</h2>` with `re.I`
(`semanticpipe.py:475`): captures the inner text. -/
def matchH2Block (s : Text) : Option (Nat × Text) :=
  match s with
  | c0 :: c1 :: c2 :: rest =>
    if c0 == 60 && eqCI c1 104 && c2 == 50 then
      let attrs := rest.takeWhile (fun c => c != 62)
      match rest.drop attrs.length with
      | 62 :: r2 =>
        match lazyUntilCI (ofStr "</h2>") (r2.length + 1) r2 with
        | some (inner, n) => some (3 + attrs.length + 1 + n + 5, inner)
        | none => none
      | _ => none
    else none
  | _ => none

/-- The stopword set of the heading-breadth signal
(`semanticpipe.py:479`). -/
def h2Stopwords : List Text :=
  [ofStr "that", ofStr "this", ofStr "with", ofStr "from", ofStr "what",
   ofStr "when", ofStr "where", ofStr "were", ofStr "have", ofStr "been",
   ofStr "they", ofStr "them", ofStr "their", ofStr "into", ofStr "also"]

/-- The heading words kept for the breadth signal: length above 3 and not a
stopword, over the lowercased plain words of all h2 texts. -/
def h2WordsOf (content : Text) : List Text :=
  ((findall matchH2Block content).map
    (fun h => (splitWs (lowerText (strip_html h))).filter
      (fun w => 3 < w.length && !h2Stopwords.contains w))).flatten

/-- Round-half-to-even division, the exact-rational model of Python
`round(x, 1)` on the density quotient (the source computes on binary
floats; the tenths value is represented as an integer numerator). -/
def roundHalfEvenDiv (a b : Nat) : Nat :=
  let q := a / b
  let r := a % b
  if 2 * r < b then q
  else if b < 2 * r then q + 1
  else if q % 2 == 0 then q else q + 1

/-- The I1-I7 scores.  `entityDensityTenths` holds ten times the stored
density (one decimal place, exactly). -/
structure Scores where
  entities : Nat
  years : Nat
  dataPoints : Nat
  namedPeople : Nat
  sourceRefs : Nat
  h2Breadth : Nat
  entityDensityTenths : Nat
deriving DecidableEq, Repr

/-- `compute_semantic_scores` (`semanticpipe.py:431-494`): the pure scorer
of (content, plain text, word count).  `round(entity_count / max(word_count
/ 1000, 0.1), 1)` equals round-half-even of `10000*entities / max(wc,
100)` tenths in exact arithmetic. -/
def compute_semantic_scores (content plainText : Text) (wordCount : Nat) : Scores :=
  let entityList := (findallB matchEntity plainText).dedup
  let entityCount := entityList.length
  { entities := entityCount
    years := (findallB (matchYear yearAcceptPipe) plainText).dedup.length
    dataPoints :=
      (findallB matchFullDate plainText).dedup.length +
      (findallB matchMeasurement plainText).dedup.length +
      (findall matchAddress plainText).dedup.length +
      min (findallB matchNum2 plainText).length 20
    namedPeople :=
      ((findallB matchPerson plainText).filter
        (fun n => !badNameWords.any (fun b => containsSub b n))).dedup.length
    sourceRefs :=
      (if altSearch srcPattern1 plainText then 1 else 0) +
      (if altSearch srcPattern2 plainText then 1 else 0) +
      (if altSearch srcPattern3 plainText then 1 else 0)
    h2Breadth := (h2WordsOf content).dedup.length
    entityDensityTenths := roundHalfEvenDiv (10000 * entityCount) (max wordCount 100) }

/-- `count_years` of the standalone audit tool (`audit.py:62-64`):
`len(set(re.findall(r'\b(1[4-9]\d{2}|20[0-2]\d)\b', text)))`. -/
def count_years (text : Text) : Nat :=
  (findallB (matchYear yearAcceptAudit) text).dedup.length

/-! ## Data model (`semanticpipe.py` record fields) -/

/-- One entry of the `categories` list: a dict with an optional `slug` key
(`.get('slug', default)` is used at `semanticpipe.py:155` and `618`). -/
structure Category where
  slug : Option Text
deriving DecidableEq, Repr

/-- The `featuredImage` dict: a missing key behaves as both fields empty
(`article.get('featuredImage', {})`, `semanticpipe.py:593-595`). -/
structure FeaturedImage where
  sourceUrl : Text
  altText : Text
deriving DecidableEq, Repr

/-- The article record.  A missing `categories` key is `none`; a missing
`wordCount` is `none` (Python `None` compares unequal to every number); the
string-valued metadata fields conflate a missing key with the empty string,
which every use of them (`if not ...`, `!= rt`, falsiness checks) cannot
distinguish. -/
structure Article where
  slug : Text
  title : Text
  excerpt : Text
  content : Text
  categories : Option (List Category)
  featuredImage : FeaturedImage
  wordCount : Option Nat
  readingTime : Text
  articleType : Text
  pageType : Text
  semanticScores : Option Scores
  modified : Text
deriving DecidableEq, Repr

/-- `HUB_MAP` (`semanticpipe.py:35-60`). -/
def HUB_MAP : List (Text × Text) :=
  [(ofStr "salem-witch-trials", ofStr "/blog/salem-witch-trials/"),
   (ofStr "vampire-culture", ofStr "/blog/vampire-culture/"),
   (ofStr "tower-of-london-history", ofStr "/blog/tower-of-london-history/"),
   (ofStr "american-prison-history", ofStr "/blog/american-prison-history/"),
   (ofStr "gettysburg-civil-war", ofStr "/blog/gettysburg-civil-war/"),
   (ofStr "pop-culture-dark-history", ofStr "/blog/pop-culture-dark-history/"),
   (ofStr "chicago-haunted-history", ofStr "/blog/chicago-haunted-history/"),
   (ofStr "new-orleans-voodoo-haunted-history", ofStr "/blog/new-orleans-voodoo-haunted-history/"),
   (ofStr "key-west-haunted-history", ofStr "/blog/key-west-haunted-history/"),
   (ofStr "austin-haunted-history", ofStr "/blog/austin-haunted-history/"),
   (ofStr "boston-haunted-history", ofStr "/blog/boston-haunted-history/"),
   (ofStr "charleston-haunted-history", ofStr "/blog/charleston-haunted-history/"),
   (ofStr "denver-haunted-history", ofStr "/blog/denver-haunted-history/"),
   (ofStr "dublin-haunted-history", ofStr "/blog/dublin-haunted-history/"),
   (ofStr "edinburgh-haunted-history", ofStr "/blog/edinburgh-haunted-history/"),
   (ofStr "london-haunted-history", ofStr "/blog/london-haunted-history/"),
   (ofStr "nashville-haunted-history", ofStr "/blog/nashville-haunted-history/"),
   (ofStr "new-york-haunted-history", ofStr "/blog/new-york-haunted-history/"),
   (ofStr "paris-haunted-history", ofStr "/blog/paris-haunted-history/"),
   (ofStr "rome-haunted-history", ofStr "/blog/rome-haunted-history/"),
   (ofStr "san-antonio-haunted-history", ofStr "/blog/san-antonio-haunted-history/"),
   (ofStr "savannah-haunted-history", ofStr "/blog/savannah-haunted-history/"),
   (ofStr "st-augustine-haunted-history", ofStr "/blog/st-augustine-haunted-history/"),
   (ofStr "washington-dc-haunted-history", ofStr "/blog/washington-dc-haunted-history/")]

/-- `TOUR_MAP` (`semanticpipe.py:63-82`). -/
def TOUR_MAP : List (Text × Text) :=
  [(ofStr "austin-haunted-history", ofStr "/austin-ghost-tours/"),
   (ofStr "boston-haunted-history", ofStr "/boston-ghost-tours/"),
   (ofStr "charleston-haunted-history", ofStr "/charleston-ghost-tours/"),
   (ofStr "chicago-haunted-history", ofStr "/chicago-ghost-tours/"),
   (ofStr "denver-haunted-history", ofStr "/denver-ghost-tours/"),
   (ofStr "dublin-haunted-history", ofStr "/dublin-ghost-tours/"),
   (ofStr "edinburgh-haunted-history", ofStr "/edinburgh-ghost-tours/"),
   (ofStr "key-west-haunted-history", ofStr "/key-west-ghost-tours/"),
   (ofStr "london-haunted-history", ofStr "/london-ghost-tours/"),
   (ofStr "nashville-haunted-history", ofStr "/nashville-ghost-tours/"),
   (ofStr "new-orleans-voodoo-haunted-history", ofStr "/new-orleans-ghost-tours/"),
   (ofStr "new-york-haunted-history", ofStr "/new-york-ghost-tours/"),
   (ofStr "paris-haunted-history", ofStr "/paris-ghost-tours/"),
   (ofStr "rome-haunted-history", ofStr "/rome-ghost-tours/"),
   (ofStr "san-antonio-haunted-history", ofStr "/san-antonio-ghost-tours/"),
   (ofStr "savannah-haunted-history", ofStr "/savannah-ghost-tours/"),
   (ofStr "st-augustine-haunted-history", ofStr "/st-augustine-ghost-tours/"),
   (ofStr "washington-dc-haunted-history", ofStr "/washington-dc-ghost-tours/")]

/-- `dict.get(key, '')` on a text-valued association list. -/
def mapGetD (m : List (Text × Text)) (k : Text) : Text :=
  match m.find? (fun e => e.1 == k) with
  | some e => e.2
  | none => []

/-! ## Validator (`semanticpipe.py:499-630`) -/

/-- The check tiers. -/
inductive Tier where
  | block
  | warn
deriving DecidableEq, Repr

/-- One validator result: (tier, rule id, passed).  The human label and
detail string of the source tuple are presentation-only and carried
nowhere else, so they are omitted. -/
abbrev CheckRes := Tier × Text × Bool

/-- Head matcher for `<hN[> ]` with `re.I` (B4/B5,
`semanticpipe.py:530`, `533`): `digit` is the code point of the level. -/
def matchHTag (digit : Nat) (s : Text) : Option (Nat × Unit) :=
  match s with
  | c0 :: c1 :: c2 :: c3 :: _ =>
    if c0 == 60 && eqCI c1 104 && c2 == digit && (c3 == 62 || c3 == 32) then
      some (4, ())
    else none
  | _ => none

/-- Head matcher for the 3-byte mojibake detector `â€[^\s<>]`
(`semanticpipe.py:554`). -/
def matchMoji3 (s : Text) : Option (Nat × Unit) :=
  match s with
  | c0 :: c1 :: c2 :: _ =>
    if c0 == 0xE2 && c1 == 0x20AC && !isWs c2 && c2 != 60 && c2 != 62 then
      some (3, ())
    else none
  | _ => none

/-- Head matcher for the 2-byte mojibake detector
`Ã[\x80-\xbf\xa0-\xff©¨¼¶¤±®´»§‰]` (`semanticpipe.py:555`): the class is
`[0x80, 0xFF]` together with `U+2030`. -/
def matchMoji2 (s : Text) : Option (Nat × Unit) :=
  match s with
  | c0 :: c1 :: _ =>
    if c0 == 0xC3 && ((0x80 ≤ c1 && c1 ≤ 0xFF) || c1 == 0x2030) then
      some (2, ())
    else none
  | _ => none

/-- The slug-keyword stopwords of B12/B13 (`semanticpipe.py:580`). -/
def slugStopwords : List Text :=
  [ofStr "the", ofStr "a", ofStr "an", ofStr "in", ofStr "of", ofStr "and", ofStr "or"]

/-- `set(slug.replace('-', ' ').split()) - {...}`: the distinct slug words
minus the stopwords. -/
def slugWordsOf (slug : Text) : List Text :=
  ((splitWs (replaceAll [45] [32] slug)).dedup).filter
    (fun w => !slugStopwords.contains w)

/-- How many slug keywords occur (as substrings) in a text. -/
def keywordHits (slugWords : List Text) (t : Text) : Nat :=
  (slugWords.filter (fun w => containsSub w t)).length

/-- The category-slug lookup of the validator (`semanticpipe.py:618`):
`article.get('categories', [{}])[0].get('slug', '')`.  `none` models the
`IndexError` raised when the key is present but the list empty. -/
def catSlugOfValidate (article : Article) : Option Text :=
  match article.categories with
  | none => some []
  | some [] => none
  | some (c :: _) => some (c.slug.getD [])

/-- Python `s.lstrip('/')`. -/
def lstripSlash (t : Text) : Text := t.dropWhile (fun c => c == 47)

/-- `validate_article` (`semanticpipe.py:499-630`): the ordered BLOCK/WARN
rule results.  `none` models the `IndexError` escaping the function when
`categories` is the empty list.  `imageFiles` stands for the set of files
under `public/` probed by `os.path.exists` for B14f.  B1 re-serializes a
record that was parsed from JSON, which cannot fail, so it is a constant
pass. -/
def validate_article (article : Article) (allSlugs : List Text)
    (imageFiles : List Text) : Option (List CheckRes) :=
  let content := article.content
  let plain := strip_html content
  let wc := (splitWs plain).length
  let body := if containsSub hrMark content then beforeFirst hrMark content else content
  let slug := article.slug
  match catSlugOfValidate article with
  | none => none
  | some catSlug =>
    let bodyPlain := strip_html body
    let foundBanned := BANNED_PHRASES.filter (fun b => searchBoundedCI b bodyPlain)
    let moji := (findall matchMoji3 content).length + (findall matchMoji2 content).length
    let bodyArtLinks := (findall matchArticleLink body).length
    let bodyHubLinks := (findall matchHubLink body).length
    let selfLinks := (findall matchAnyHref body).filter
      (fun l => containsSub slug l && containsSub (ofStr "/articles/") l)
    let artLinks := findall matchArticleSlug content
    let broken := artLinks.filter (fun s => !allSlugs.contains s)
    let titleLower := lowerText article.title
    let slugWords := slugWordsOf slug
    let first100 := lowerText (joinSpace ((splitWs plain).take 100))
    let fiUrl := article.featuredImage.sourceUrl
    let fiAlt := article.featuredImage.altText
    let fiFileOk := fiUrl.isEmpty || imageFiles.contains (lstripSlash fiUrl)
    let hubUrl := mapGetD HUB_MAP catSlug
    let tourUrl := mapGetD TOUR_MAP catSlug
    let hubFound := (!hubUrl.isEmpty && containsSub hubUrl body) ||
      (!tourUrl.isEmpty && containsSub tourUrl body)
    let bodySlugs := ((findall matchArticleSlug body).dedup).filter (fun s => s != slug)
    some
      [(Tier.block, ofStr "B1", true),
       (Tier.warn, ofStr "B2", article.title.length ≤ 60),
       (Tier.warn, ofStr "B3", article.excerpt.length ≤ 155),
       (Tier.block, ofStr "B4", (findall (matchHTag 49) content).length == 0),
       (Tier.warn, ofStr "B5",
         4 ≤ (findall (matchHTag 50) content).length &&
         (findall (matchHTag 50) content).length ≤ (if 2000 ≤ wc then 16 else 8)),
       (Tier.block, ofStr "B6", 1000 ≤ wc),
       (Tier.block, ofStr "B7", foundBanned.isEmpty),
       (Tier.block, ofStr "B8", moji == 0),
       (Tier.warn, ofStr "B9", 3 ≤ bodyArtLinks + bodyHubLinks),
       (Tier.block, ofStr "B10", selfLinks.isEmpty),
       (Tier.block, ofStr "B11", broken.isEmpty),
       (Tier.warn, ofStr "B12", min 2 slugWords.length ≤ keywordHits slugWords titleLower),
       (Tier.warn, ofStr "B13", min 2 slugWords.length ≤ keywordHits slugWords first100),
       (Tier.block, ofStr "B14", !fiUrl.isEmpty && !fiAlt.isEmpty),
       (Tier.warn, ofStr "B14f", fiFileOk),
       (Tier.warn, ofStr "W1", 0 < article.wordCount.getD 0),
       (Tier.warn, ofStr "W2", !article.readingTime.isEmpty),
       (Tier.warn, ofStr "W3", !article.articleType.isEmpty),
       (Tier.warn, ofStr "W4",
         !article.pageType.isEmpty && article.pageType ≠ ofStr "unassigned"),
       (Tier.warn, ofStr "W5",
         containsSub hrMark content && containsSub (ofStr "Continue Reading") content),
       (Tier.warn, ofStr "W6", hubFound),
       (Tier.warn, ofStr "W7", 2 ≤ bodySlugs.length)]

/-- The rule ids of the failed BLOCK checks, in order (`block_fails`). -/
def blockFailsOf (results : List CheckRes) : List Text :=
  (results.filter (fun r => r.1 == Tier.block && !r.2.2)).map (fun r => r.2.1)

/-- The rule ids of the failed WARN checks, in order (`warn_fails`). -/
def warnFailsOf (results : List CheckRes) : List Text :=
  (results.filter (fun r => r.1 == Tier.warn && !r.2.2)).map (fun r => r.2.1)

/-! ## Inventory (`semanticpipe.py:141-159`) -/

/-- The durable storage: one file per record named by its slug, plus the
image assets probed by B14f. -/
structure FileSys where
  articles : List (Text × Article)
  imageFiles : List Text
deriving DecidableEq, Repr

/-- The read-only inventory built once per run. -/
structure Inventory where
  allSlugs : List Text
  catMap : List (Text × List Text)
  slugToTitle : List (Text × Text)
  slugToCat : List (Text × Text)
deriving DecidableEq, Repr

/-- The category-slug lookup of the inventory loader (`semanticpipe.py:155`):
`a.get('categories', [{}])[0].get('slug', 'uncategorized')`; `none` models
the `IndexError` on an empty category list. -/
def catSlugOfLoad (a : Article) : Option Text :=
  match a.categories with
  | none => some (ofStr "uncategorized")
  | some [] => none
  | some (c :: _) => some (c.slug.getD (ofStr "uncategorized"))

/-- `cat_map.setdefault(cat, []).append(slug)`: appends under the key,
keeping first-seen key order. -/
def catMapAdd (m : List (Text × List Text)) (cat slug : Text) : List (Text × List Text) :=
  match m with
  | [] => [(cat, [slug])]
  | e :: rest => if e.1 == cat then (e.1, e.2 ++ [slug]) :: rest else e :: catMapAdd rest cat slug

/-- The loader loop over the article files, in directory order. -/
def loadInvGo (inv : Inventory) : List (Text × Article) → Option Inventory
  | [] => some inv
  | (slug, a) :: rest =>
    match catSlugOfLoad a with
    | none => none
    | some cat =>
      loadInvGo
        { allSlugs := inv.allSlugs ++ [slug]
          catMap := catMapAdd inv.catMap cat slug
          slugToTitle := inv.slugToTitle ++ [(slug, a.title)]
          slugToCat := inv.slugToCat ++ [(slug, cat)] } rest

/-- `load_inventory` (`semanticpipe.py:141-159`).  `none` models the
`IndexError` raised on a record whose `categories` key holds an empty
list.  `slug_to_title` uses the record title (`a.get('title', slug)`; a
record with no title key is modelled as an empty title). -/
def load_inventory (fs : FileSys) : Option Inventory :=
  loadInvGo { allSlugs := [], catMap := [], slugToTitle := [], slugToCat := [] } fs.articles

/-! ## Audit logger and optimizer (`semanticpipe.py:635-830`) -/

/-- The externally visible writes of one record's processing.  The audit
constructors carry the data assembled into the narrative Markdown entry and
the structured JSONL entry respectively; the string templating of the two
sinks is presentation-only and abstracted. -/
inductive Effect where
  | saveFile (slug : Text) (a : Article)
  | auditMd (slug : Text) (results : List CheckRes) (changes : List Change)
      (blockCount warnCount : Nat) (scores : Option Scores)
  | auditJsonl (slug : Text) (blockCount warnCount : Nat) (changes : List Change)
      (checks : List (Text × Bool)) (scores : Option Scores)
deriving DecidableEq, Repr

/-- `write_audit_log` (`semanticpipe.py:635-687`): one narrative entry and
one structured entry, appended under the audit lock. -/
def write_audit_log (slug : Text) (results : List CheckRes) (changes : List Change)
    (blockCount warnCount : Nat) (article : Article) : List Effect :=
  [Effect.auditMd slug results changes blockCount warnCount article.semanticScores,
   Effect.auditJsonl slug blockCount warnCount changes
     (results.map (fun r => (r.2.1, r.2.2))) article.semanticScores]

/-- Association-list lookup with an explicit default. -/
def lookupD (m : List (Text × Text)) (k d : Text) : Text :=
  match m.find? (fun e => e.1 == k) with
  | some e => e.2
  | none => d

/-- `cat_map.get(cat_slug, [])`. -/
def catMapGet (m : List (Text × List Text)) (k : Text) : List Text :=
  match m.find? (fun e => e.1 == k) with
  | some e => e.2
  | none => []

/-- The title/excerpt mojibake loop (`semanticpipe.py:722-726`): for each
map entry in insertion order, replace when present. -/
def fixMojiField (t : Text) : List (Text × Text) → Text
  | [] => t
  | (bad, good) :: rest =>
    fixMojiField (if containsSub bad t then replaceAll bad good t else t) rest

/-- Decimal rendering of a natural number. -/
def natToTextGo : Nat → Nat → Text
  | 0, n => [48 + n % 10]
  | fuel + 1, n => if n < 10 then [48 + n] else natToTextGo fuel (n / 10) ++ [48 + n % 10]

def natToText (n : Nat) : Text := natToTextGo n n

/-- `f"{math.ceil(wc / 275)} min read"` (`semanticpipe.py:767`); the float
ceiling equals the exact ceiling division on word counts. -/
def readingTimeText (wc : Nat) : Text :=
  natToText ((wc + 274) / 275) ++ ofStr " min read"

/-- `article.get('wordCount') != wc`: a missing key (Python `None`) compares
unequal to every number. -/
def wordCountNe (w : Option Nat) (wc : Nat) : Bool :=
  match w with
  | none => true
  | some n => n != wc

/-- The metadata-fill step (`semanticpipe.py:763-776`): word count, reading
time, article type (only if unset), page type (only if unset), each change
recorded only when the stored value differs. -/
def metadataFill (a : Article) (wc : Nat) : Article × List Change :=
  let s1 :=
    if wordCountNe a.wordCount wc then
      ({ a with wordCount := some wc }, [Change.setWordCount wc])
    else (a, [])
  let rt := readingTimeText wc
  let s2 :=
    if s1.1.readingTime ≠ rt then
      ({ s1.1 with readingTime := rt }, s1.2 ++ [Change.setReadingTime rt])
    else s1
  let s3 :=
    if s2.1.articleType.isEmpty then
      let t := if 2000 ≤ wc then ofStr "pillar" else ofStr "spoke"
      ({ s2.1 with articleType := t }, s2.2 ++ [Change.setArticleType t])
    else s2
  if s3.1.pageType.isEmpty || s3.1.pageType == ofStr "unassigned" then
    ({ s3.1 with pageType := ofStr "hub-spoke" }, s3.2 ++ [Change.setPageType])
  else s3

/-- The in-memory remediation pipeline of `optimize_article`
(`semanticpipe.py:709-778`): codec repair, title/excerpt repair and trims,
phrase rewriting, link insertion, scoring, metadata fill, timestamp.
Returns the mutated record and the accumulated change log. -/
def optimizeTransform (inv : Inventory) (now slug : Text) (a0 : Article) :
    Article × List Change :=
  let catSlug := lookupD inv.slugToCat slug (ofStr "uncategorized")
  let siblings := catMapGet inv.catMap catSlug
  let r1 := fix_mojibake a0.content
  let changes1 := if 0 < r1.2 then [Change.fixedMojibake r1.2] else []
  let a1 := { a0 with
    title := fixMojiField a0.title build_mojibake_map
    excerpt := fixMojiField a0.excerpt build_mojibake_map }
  let newTitle := trim_title a1.title
  let s2 :=
    if newTitle ≠ a1.title then
      ({ a1 with title := newTitle },
       changes1 ++ [Change.titleTrimmed a1.title.length newTitle.length])
    else (a1, changes1)
  let newExcerpt := trim_excerpt s2.1.excerpt
  let s3 :=
    if newExcerpt ≠ s2.1.excerpt then
      ({ s2.1 with excerpt := newExcerpt },
       s2.2 ++ [Change.excerptTrimmed s2.1.excerpt.length newExcerpt.length])
    else s2
  let r4 := fix_banned_phrases r1.1
  let r5 := insert_sibling_links r4.1 slug catSlug siblings inv.slugToTitle inv.allSlugs
  let a5 := { s3.1 with content := r5.1 }
  let changes5 := s3.2 ++ r4.2 ++ r5.2
  let plain := strip_html r5.1
  let wc := count_words r5.1
  let scores := compute_semantic_scores r5.1 plain wc
  let s6 :=
    if a5.semanticScores ≠ some scores then
      ({ a5 with semanticScores := some scores },
       if changes5.contains Change.computedScores then changes5
       else changes5 ++ [Change.computedScores])
    else (a5, changes5)
  let s7 := metadataFill s6.1 wc
  ({ s7.1 with modified := now }, s6.2 ++ s7.2)

/-- Record-processing statuses. -/
inductive OptStatus where
  | saved
  | blocked
  | dryRun
  | error
deriving DecidableEq, Repr

/-- The outcome of processing one record: status, remaining BLOCK/WARN rule
ids, the change log and the writes performed. -/
structure OptResult where
  slug : Text
  status : OptStatus
  blockFails : List Text
  warnFails : List Text
  changes : List Change
  effects : List Effect
deriving DecidableEq, Repr

/-- `optimize_article` (`semanticpipe.py:692-830`) together with the
per-record exception handler of `run_pipeline.process_one` (879-880): a
missing file is the ERROR early return at 697-699, and an exception escaping
`validate_article` is caught by `process_one` as ERROR.  In dry-run mode the
function returns after validation, before the save and log steps (815-817);
otherwise the record is saved iff no BLOCK rule failed, and the audit log is
written in both forms. -/
def optimize_article (inv : Inventory) (fs : FileSys) (now slug : Text)
    (dryRun : Bool) : OptResult :=
  match fs.articles.find? (fun e => e.1 == slug) with
  | none =>
    { slug := slug, status := OptStatus.error, blockFails := [], warnFails := [],
      changes := [], effects := [] }
  | some e =>
    let t := optimizeTransform inv now slug e.2
    match validate_article t.1 inv.allSlugs fs.imageFiles with
    | none =>
      { slug := slug, status := OptStatus.error, blockFails := [], warnFails := [],
        changes := [], effects := [] }
    | some results =>
      let blockFails := blockFailsOf results
      let warnFails := warnFailsOf results
      if dryRun then
        { slug := slug, status := OptStatus.dryRun, blockFails := blockFails,
          warnFails := warnFails, changes := t.2, effects := [] }
      else
        { slug := slug
          status := if blockFails.isEmpty then OptStatus.saved else OptStatus.blocked
          blockFails := blockFails
          warnFails := warnFails
          changes := t.2
          effects :=
            (if blockFails.isEmpty then [Effect.saveFile slug t.1] else []) ++
            write_audit_log slug results t.2 blockFails.length warnFails.length t.1 }

/-! ## Concurrent runner and exit status (`semanticpipe.py:856-1009`) -/

/-- The run summary aggregated by `run_pipeline` (DRY_RUN outcomes are
counted as saved, `semanticpipe.py:891-898`). -/
structure Summary where
  total : Nat
  saved : Nat
  blocked : Nat
  errors : Nat
deriving DecidableEq, Repr

/-- `run_pipeline` (`semanticpipe.py:856-943`): loads the inventory once,
processes every slug, and aggregates counts.  `none` models the uncaught
exception when `load_inventory` raises.  The worker pool completes records
in nondeterministic order; the counts are order-independent, so the run is
modelled sequentially. -/
def run_pipeline (fs : FileSys) (now : Text) (slugs : List Text) (dryRun : Bool) :
    Option (Summary × List OptResult) :=
  match load_inventory fs with
  | none => none
  | some inv =>
    let outcomes := slugs.map (fun s => optimize_article inv fs now s dryRun)
    some
      ({ total := slugs.length
         saved := (outcomes.filter
           (fun r => r.status == OptStatus.saved || r.status == OptStatus.dryRun)).length
         blocked := (outcomes.filter (fun r => r.status == OptStatus.blocked)).length
         errors := (outcomes.filter (fun r => r.status == OptStatus.error)).length },
       outcomes)

/-- The exit-code selection of `main` (`semanticpipe.py:1004-1009`):
2 when any record errored, else 1 when any record stayed blocked, else 0. -/
def mainExitCode (s : Summary) : Nat :=
  if 0 < s.errors then 2 else if 0 < s.blocked then 1 else 0

/-- How many file writes a processing outcome performed. -/
def saveCount (effects : List Effect) : Nat :=
  (effects.filter fun e =>
    match e with
    | Effect.saveFile _ _ => true
    | _ => false).length

/-- How many narrative audit entries a processing outcome appended. -/
def auditMdCount (effects : List Effect) : Nat :=
  (effects.filter fun e =>
    match e with
    | Effect.auditMd _ _ _ _ _ _ => true
    | _ => false).length

/-- How many structured audit entries a processing outcome appended. -/
def auditJsonlCount (effects : List Effect) : Nat :=
  (effects.filter fun e =>
    match e with
    | Effect.auditJsonl _ _ _ _ _ _ => true
    | _ => false).length

end SemanticPipe

namespace SemanticPipe

/-! ## Theorems -/

theorem metadataFill_slug (a : Article) (wc : Nat) :
    (metadataFill a wc).1.slug = a.slug := by
  unfold metadataFill
  dsimp only
  split_ifs <;> rfl

theorem optimizeTransform_slug (inv : Inventory) (now slug : Text) (a : Article) :
    (optimizeTransform inv now slug a).1.slug = a.slug := by
  unfold optimizeTransform
  dsimp only
  split_ifs <;> simp [metadataFill_slug]

theorem wordCountNe_false {w : Option Nat} {wc : Nat} (h : wordCountNe w wc = false) :
    w = some wc := by
  unfold wordCountNe at h
  cases w with
  | none => simp at h
  | some n => simp at h; simp [h]

theorem metadataFill_wordCount (a : Article) (wc : Nat) :
    (metadataFill a wc).1.wordCount = some wc := by
  unfold metadataFill
  dsimp only
  cases hw : wordCountNe a.wordCount wc with
  | true => simp only [hw]; split_ifs <;> rfl
  | false =>
    have ha := wordCountNe_false hw
    simp only [hw, Bool.false_eq_true, if_false]
    split_ifs <;> simp [ha]

theorem metadataFill_readingTime (a : Article) (wc : Nat) :
    (metadataFill a wc).1.readingTime = readingTimeText wc := by
  unfold metadataFill
  dsimp only
  split_ifs <;> simp_all

theorem metadataFill_articleType_unset (a : Article) (wc : Nat) (h : a.articleType = []) :
    (metadataFill a wc).1.articleType = if 2000 ≤ wc then ofStr "pillar" else ofStr "spoke" := by
  unfold metadataFill
  dsimp only
  split_ifs <;> simp_all [List.isEmpty_iff]

theorem metadataFill_articleType_kept (a : Article) (wc : Nat) (h : a.articleType ≠ []) :
    (metadataFill a wc).1.articleType = a.articleType := by
  unfold metadataFill
  dsimp only
  split_ifs <;> simp_all [List.isEmpty_iff]

theorem metadataFill_pageType_unset (a : Article) (wc : Nat)
    (h : a.pageType = [] ∨ a.pageType = ofStr "unassigned") :
    (metadataFill a wc).1.pageType = ofStr "hub-spoke" := by
  unfold metadataFill
  dsimp only
  split_ifs <;> simp_all [List.isEmpty_iff]

theorem metadataFill_pageType_kept (a : Article) (wc : Nat)
    (h1 : a.pageType ≠ []) (h2 : a.pageType ≠ ofStr "unassigned") :
    (metadataFill a wc).1.pageType = a.pageType := by
  unfold metadataFill
  dsimp only
  split_ifs <;> simp_all [List.isEmpty_iff]

theorem metadataFill_fixpoint (b : Article) (wc : Nat)
    (h1 : b.wordCount = some wc)
    (h2 : b.readingTime = readingTimeText wc)
    (h3 : b.articleType ≠ [])
    (h4 : b.pageType ≠ []) (h5 : b.pageType ≠ ofStr "unassigned") :
    metadataFill b wc = (b, []) := by
  unfold metadataFill
  dsimp only
  rw [h1]
  simp [wordCountNe, h2, List.isEmpty_iff, h3, h4, h5]

theorem metadataFill_articleType_ne (a : Article) (wc : Nat) :
    (metadataFill a wc).1.articleType ≠ [] := by
  by_cases h : a.articleType = []
  · rw [metadataFill_articleType_unset a wc h]
    split_ifs <;> decide
  · rw [metadataFill_articleType_kept a wc h]; exact h

theorem metadataFill_pageType_ne (a : Article) (wc : Nat) :
    (metadataFill a wc).1.pageType ≠ [] ∧
      (metadataFill a wc).1.pageType ≠ ofStr "unassigned" := by
  by_cases h : a.pageType = [] ∨ a.pageType = ofStr "unassigned"
  · rw [metadataFill_pageType_unset a wc h]
    exact ⟨by decide, by decide⟩
  · push_neg at h
    rw [metadataFill_pageType_kept a wc h.1 h.2]
    exact h

theorem metadataFill_idem (a : Article) (wc : Nat) :
    metadataFill (metadataFill a wc).1 wc = ((metadataFill a wc).1, []) :=
  metadataFill_fixpoint _ wc (metadataFill_wordCount a wc)
    (metadataFill_readingTime a wc) (metadataFill_articleType_ne a wc)
    (metadataFill_pageType_ne a wc).1 (metadataFill_pageType_ne a wc).2

/-- C8: metadata fill sets the reading time to `ceil(wordCount/275)` minutes
(`readingTimeText` renders exactly that ceiling), sets the article type to
`pillar` iff the word count is at least 2000 and `spoke` otherwise but only
when it is unset, keeps a set article type, sets the page type to
`hub-spoke` only when unset (empty or `unassigned`), keeps it otherwise,
and is idempotent: rerunning on the filled record changes nothing and
reports no change. -/
theorem c8_metadata_fill (a : Article) (wc : Nat) :
    (metadataFill a wc).1.readingTime = readingTimeText wc ∧
    (a.articleType = [] → (metadataFill a wc).1.articleType =
      if 2000 ≤ wc then ofStr "pillar" else ofStr "spoke") ∧
    (a.articleType ≠ [] → (metadataFill a wc).1.articleType = a.articleType) ∧
    ((a.pageType = [] ∨ a.pageType = ofStr "unassigned") →
      (metadataFill a wc).1.pageType = ofStr "hub-spoke") ∧
    (a.pageType ≠ [] ∧ a.pageType ≠ ofStr "unassigned" →
      (metadataFill a wc).1.pageType = a.pageType) ∧
    metadataFill (metadataFill a wc).1 wc = ((metadataFill a wc).1, []) :=
  ⟨metadataFill_readingTime a wc,
   fun h => metadataFill_articleType_unset a wc h,
   fun h => metadataFill_articleType_kept a wc h,
   fun h => metadataFill_pageType_unset a wc h,
   fun h => metadataFill_pageType_kept a wc h.1 h.2,
   metadataFill_idem a wc⟩

/-- A record whose metadata is entirely unset, for the C8 witness. -/
def c8Art : Article :=
  { slug := ofStr "a", title := [], excerpt := [], content := [],
    categories := none, featuredImage := { sourceUrl := [], altText := [] },
    wordCount := none, readingTime := [], articleType := [], pageType := [],
    semanticScores := none, modified := [] }

theorem c8_witness :
    (metadataFill c8Art 300).1.readingTime = readingTimeText 300 ∧
    (metadataFill c8Art 300).1.articleType =
      (if 2000 ≤ 300 then ofStr "pillar" else ofStr "spoke") ∧
    (metadataFill c8Art 300).1.pageType = ofStr "hub-spoke" ∧
    metadataFill (metadataFill c8Art 300).1 300 = ((metadataFill c8Art 300).1, []) :=
  ⟨(c8_metadata_fill c8Art 300).1,
   (c8_metadata_fill c8Art 300).2.1 rfl,
   (c8_metadata_fill c8Art 300).2.2.2.1 (Or.inl rfl),
   (c8_metadata_fill c8Art 300).2.2.2.2.2⟩

/-- C9: the record identifier is immutable through remediation: the full
in-memory pipeline of `optimize_article` (codec repair, title/excerpt
repair and trims, phrase rewriting, link insertion, scoring, metadata fill,
timestamp) never changes the `slug` field — its value after
`optimizeTransform` equals its value as loaded, for every record and every
inventory. -/
theorem c9_slug_immutable (inv : Inventory) (now slug : Text) (a : Article) :
    (optimizeTransform inv now slug a).1.slug = a.slug :=
  optimizeTransform_slug inv now slug a

theorem catSlugOfValidate_none_iff (a : Article) :
    catSlugOfValidate a = none ↔ a.categories = some [] := by
  unfold catSlugOfValidate
  cases hc : a.categories with
  | none => simp
  | some l => cases l <;> simp

theorem catSlugOfLoad_none_iff (a : Article) :
    catSlugOfLoad a = none ↔ a.categories = some [] := by
  unfold catSlugOfLoad
  cases hc : a.categories with
  | none => simp
  | some l => cases l <;> simp

theorem validate_article_isSome_iff (a : Article) (slugs imgs : List Text) :
    (validate_article a slugs imgs).isSome ↔ a.categories ≠ some [] := by
  unfold validate_article
  cases hc : catSlugOfValidate a with
  | none =>
    simp only [Option.isSome_none]
    simp [← catSlugOfValidate_none_iff, hc]
  | some c =>
    simp only [Option.isSome_some]
    constructor
    · intro _ hcat
      rw [(catSlugOfValidate_none_iff a).2 hcat] at hc
      exact Option.noConfusion hc
    · intro _; trivial

theorem loadInvGo_isSome (l : List (Text × Article)) : ∀ inv : Inventory,
    (loadInvGo inv l).isSome ↔ ∀ p ∈ l, p.2.categories ≠ some [] := by
  induction l with
  | nil => intro inv; simp [loadInvGo]
  | cons p rest ih =>
    intro inv
    obtain ⟨slug, a⟩ := p
    cases hc : catSlugOfLoad a with
    | none =>
      simp only [loadInvGo, hc, Option.isSome_none]
      have := (catSlugOfLoad_none_iff a).1 hc
      simp [this]
    | some c =>
      simp only [loadInvGo, hc, ih]
      have : a.categories ≠ some [] := by
        intro hcat
        rw [(catSlugOfLoad_none_iff a).2 hcat] at hc
        exact Option.noConfusion hc
      simp [this]

/-- C10: `validate_article` is total exactly under the precondition that
the `categories` key is absent or holds a non-empty list: with an empty
list the first-element lookup raises (`none`) instead of returning a
result list, and the inventory loader has the same precondition over every
record on disk. -/
theorem c10_categories_precondition :
    (∀ (a : Article) (slugs imgs : List Text),
      (validate_article a slugs imgs).isSome ↔ a.categories ≠ some []) ∧
    (∀ fs : FileSys,
      (load_inventory fs).isSome ↔ ∀ p ∈ fs.articles, p.2.categories ≠ some []) :=
  ⟨validate_article_isSome_iff, fun fs => loadInvGo_isSome fs.articles _⟩

theorem saveCount_append (l1 l2 : List Effect) :
    saveCount (l1 ++ l2) = saveCount l1 + saveCount l2 := by
  simp [saveCount, List.filter_append]

/-- C1: for every record processed outside dry-run (the status is not
ERROR), the record is written back to its file iff zero BLOCK-tier rules
fail after remediation: exactly one save effect when `blockFails` is empty
and none otherwise. -/
theorem c1_gate_persist_iff_no_block_fails (inv : Inventory) (fs : FileSys)
    (now slug : Text)
    (h : (optimize_article inv fs now slug false).status ≠ OptStatus.error) :
    saveCount (optimize_article inv fs now slug false).effects =
      (if (optimize_article inv fs now slug false).blockFails = [] then 1 else 0) := by
  unfold optimize_article at h ⊢
  cases hf : fs.articles.find? (fun e => e.1 == slug) with
  | none => rw [hf] at h; exact absurd rfl h
  | some e =>
    rw [hf] at h
    dsimp only at h ⊢
    cases hv : validate_article (optimizeTransform inv now slug e.2).1 inv.allSlugs
        fs.imageFiles with
    | none => rw [hv] at h; exact absurd rfl h
    | some results =>
      dsimp only at h ⊢
      by_cases hb : (blockFailsOf results).isEmpty
      · simp [hb, List.isEmpty_iff.1 hb, saveCount_append, saveCount,
          write_audit_log, List.filter]
      · simp only [hb, Bool.false_eq_true, if_false]
        rw [List.isEmpty_iff] at hb
        simp [hb, saveCount_append, saveCount, write_audit_log, List.filter]

/-- C3 (amended): for every record processed to completion outside dry-run
(the status is not ERROR), exactly one narrative and one structured audit
entry are written, whether the record is SAVED or BLOCKED. -/
theorem c3_audit_written_unless_dry_or_error (inv : Inventory) (fs : FileSys)
    (now slug : Text)
    (h : (optimize_article inv fs now slug false).status ≠ OptStatus.error) :
    auditMdCount (optimize_article inv fs now slug false).effects = 1 ∧
      auditJsonlCount (optimize_article inv fs now slug false).effects = 1 := by
  unfold optimize_article at h ⊢
  cases hf : fs.articles.find? (fun e => e.1 == slug) with
  | none => rw [hf] at h; exact absurd rfl h
  | some e =>
    rw [hf] at h
    dsimp only at h ⊢
    cases hv : validate_article (optimizeTransform inv now slug e.2).1 inv.allSlugs
        fs.imageFiles with
    | none => rw [hv] at h; exact absurd rfl h
    | some results =>
      dsimp only at h ⊢
      by_cases hb : (blockFailsOf results).isEmpty <;>
        simp [hb, auditMdCount, auditJsonlCount, write_audit_log, List.filter,
          List.filter_append]

/-- A minimal stored record for the processing witnesses: empty content, so
validation blocks it on the word-count and image rules. -/
def sampleArticle : Article :=
  { slug := ofStr "ghost-house", title := ofStr "Ghost House", excerpt := [],
    content := [], categories := some [{ slug := some (ofStr "salem-witch-trials") }],
    featuredImage := { sourceUrl := [], altText := [] }, wordCount := none,
    readingTime := [], articleType := [], pageType := [], semanticScores := none,
    modified := [] }

def sampleFs : FileSys :=
  { articles := [(ofStr "ghost-house", sampleArticle)], imageFiles := [] }

def sampleInv : Inventory :=
  (load_inventory sampleFs).getD
    { allSlugs := [], catMap := [], slugToTitle := [], slugToCat := [] }

theorem metadataFill_categories (a : Article) (wc : Nat) :
    (metadataFill a wc).1.categories = a.categories := by
  unfold metadataFill
  dsimp only
  split_ifs <;> rfl

theorem optimizeTransform_categories (inv : Inventory) (now slug : Text) (a : Article) :
    (optimizeTransform inv now slug a).1.categories = a.categories := by
  unfold optimizeTransform
  dsimp only
  split_ifs <;> simp [metadataFill_categories]

theorem optimize_article_not_error (inv : Inventory) (fs : FileSys) (now slug : Text)
    (dry : Bool) (e : Text × Article)
    (hf : fs.articles.find? (fun x => x.1 == slug) = some e)
    (hc : e.2.categories ≠ some []) :
    (optimize_article inv fs now slug dry).status ≠ OptStatus.error := by
  unfold optimize_article
  rw [hf]
  dsimp only
  cases hv : validate_article (optimizeTransform inv now slug e.2).1 inv.allSlugs
      fs.imageFiles with
  | none =>
    have hs := (validate_article_isSome_iff (optimizeTransform inv now slug e.2).1
        inv.allSlugs fs.imageFiles).2
      (by rw [optimizeTransform_categories]; exact hc)
    rw [hv] at hs
    simp at hs
  | some results =>
    dsimp only
    cases dry with
    | true => simp
    | false => split_ifs <;> simp

theorem optimize_article_dry_shape (inv : Inventory) (fs : FileSys) (now slug : Text)
    (e : Text × Article)
    (hf : fs.articles.find? (fun x => x.1 == slug) = some e)
    (hc : e.2.categories ≠ some []) :
    (optimize_article inv fs now slug true).status = OptStatus.dryRun ∧
      (optimize_article inv fs now slug true).effects = [] := by
  unfold optimize_article
  rw [hf]
  dsimp only
  cases hv : validate_article (optimizeTransform inv now slug e.2).1 inv.allSlugs
      fs.imageFiles with
  | none =>
    have hs := (validate_article_isSome_iff (optimizeTransform inv now slug e.2).1
        inv.allSlugs fs.imageFiles).2
      (by rw [optimizeTransform_categories]; exact hc)
    rw [hv] at hs
    simp at hs
  | some results => exact ⟨by simp, by simp⟩

theorem c1_witness :
    saveCount (optimize_article sampleInv sampleFs [] (ofStr "ghost-house") false).effects =
      (if (optimize_article sampleInv sampleFs [] (ofStr "ghost-house") false).blockFails = []
        then 1 else 0) :=
  c1_gate_persist_iff_no_block_fails sampleInv sampleFs [] (ofStr "ghost-house")
    (optimize_article_not_error sampleInv sampleFs [] (ofStr "ghost-house") false
      (ofStr "ghost-house", sampleArticle) (by decide) (by decide))

/-- C3 counterexample: in dry-run mode the optimizer returns before the save
and log steps, so a record processed to completion (status DRY_RUN, not an
error) triggers no audit write at all — LOGGED does not execute in
dry-run. -/
theorem c3_counterexample :
    (optimize_article sampleInv sampleFs [] (ofStr "ghost-house") true).status =
        OptStatus.dryRun ∧
      (optimize_article sampleInv sampleFs [] (ofStr "ghost-house") true).effects = [] :=
  optimize_article_dry_shape sampleInv sampleFs [] (ofStr "ghost-house")
    (ofStr "ghost-house", sampleArticle) (by decide) (by decide)

theorem c3_witness :
    auditMdCount (optimize_article sampleInv sampleFs [] (ofStr "ghost-house") false).effects = 1 ∧
      auditJsonlCount (optimize_article sampleInv sampleFs [] (ofStr "ghost-house") false).effects = 1 :=
  c3_audit_written_unless_dry_or_error sampleInv sampleFs [] (ofStr "ghost-house")
    (optimize_article_not_error sampleInv sampleFs [] (ofStr "ghost-house") false
      (ofStr "ghost-house", sampleArticle) (by decide) (by decide))

theorem applyInsertions_changes_len (l : List (Text × Text × Text)) :
    ∀ (content : Text) (changes : List Change),
    (applyInsertions content changes l).2.length ≤ changes.length + l.length := by
  induction l with
  | nil => intro c ch; simp [applyInsertions]
  | cons x rest ih =>
    intro c ch
    obtain ⟨o, n, s⟩ := x
    unfold applyInsertions
    split_ifs with hA
    · exact le_trans (ih _ _) (by simp; omega)
    · exact le_trans (ih _ _) (by simp)

theorem zipLenLeLeft {α β : Type} (a : List α) (b : List β) :
    (List.zip a b).length ≤ a.length := by
  rw [List.length_zip]
  exact Nat.min_le_left _ _

theorem selectedLenLe {α : Type} (c : Prop) [Decidable c] (k : Nat) (xs : List α)
    (g : Nat → α) :
    (if c then (List.range k).map g else xs.take k).length ≤ k := by
  split_ifs
  · simp
  · simp [List.length_take]

/-- C4: link insertion never exceeds the deficit.  With `n` the current
in-body link count (the greedy `/articles/` matches before the thematic
break), at most `3 - n` change entries are produced — each applied insertion
appends exactly one link and one change — and when `n ≥ 3` the function
returns the content unchanged with no change descriptions. -/
theorem c4_link_insertion_bounded (content slug catSlug : Text) (siblings : List Text)
    (slugToTitle : List (Text × Text)) (allSlugs : List Text) :
    (insert_sibling_links content slug catSlug siblings slugToTitle allSlugs).2.length ≤
      3 - (findall matchArticleLink (if containsSub hrMark content then
            beforeFirst hrMark content else content)).length ∧
    (3 ≤ (findall matchArticleLink (if containsSub hrMark content then
            beforeFirst hrMark content else content)).length →
      insert_sibling_links content slug catSlug siblings slugToTitle allSlugs =
        (content, [])) := by
  unfold insert_sibling_links
  by_cases h0 : (3 - (findall matchArticleLink (if containsSub hrMark content then
      beforeFirst hrMark content else content)).length == 0)
  · constructor
    · simp [h0]
    · intro _
      simp [h0]
  · simp only [h0, Bool.false_eq_true, if_false]
    constructor
    · refine le_trans (applyInsertions_changes_len _ _ _) ?_
      simp only [List.length_nil, Nat.zero_add, List.length_reverse, List.length_map]
      refine le_trans (zipLenLeLeft _ _) (selectedLenLe _ _ _ _)
    · intro h3
      exfalso
      apply h0
      simp only [beq_iff_eq]
      omega

/-- The three-link content for the C4 witness. -/
def c4Content : Text :=
  ofStr "href=\"/articles/a/\" href=\"/articles/b/\" href=\"/articles/c/\" <p>text</p>"

theorem c4_witness :
    insert_sibling_links c4Content [] [] [] [] [] = (c4Content, []) :=
  (c4_link_insertion_bounded c4Content [] [] [] [] []).2 (by decide)

theorem firstSubIdx_isPrefix (n : Text) : ∀ t : Text, containsSub n t = true →
    n.isPrefixOf (t.drop (firstSubIdx n t)) = true := by
  intro t
  induction t with
  | nil =>
    intro h
    simp only [containsSub, List.isEmpty_iff] at h
    simp [firstSubIdx, h, List.isPrefixOf]
  | cons c cs ih =>
    intro h
    simp only [containsSub, Bool.or_eq_true] at h
    unfold firstSubIdx
    by_cases hp : n.isPrefixOf (c :: cs)
    · simp [hp]
    · simp only [hp, Bool.false_eq_true, if_false]
      rcases h with h | h
      · exact absurd h hp
      · simpa using ih h

theorem firstSubIdx_min (n : Text) : ∀ (t : Text) (i : Nat),
    i < firstSubIdx n t → n.isPrefixOf (t.drop i) = false := by
  intro t
  induction t with
  | nil => intro i hi; simp [firstSubIdx] at hi
  | cons c cs ih =>
    intro i hi
    unfold firstSubIdx at hi
    by_cases hp : n.isPrefixOf (c :: cs)
    · simp [hp] at hi
    · simp only [hp, Bool.false_eq_true, if_false] at hi
      cases i with
      | zero =>
        rw [List.drop_zero]
        cases hb : List.isPrefixOf n (c :: cs) with
        | false => rfl
        | true => exact absurd hb hp
      | succ j => simpa using ih j (by omega)

/-- C5: phrase rewriting never touches text after the thematic-break
marker: when the content contains `<hr`, the original text from the first
occurrence of `<hr` onward is, byte for byte, a suffix of the rewritten
content (the function rewrites only the prefix before it).  The second and
third conjuncts pin the index down as the first occurrence. -/
theorem c5_footer_untouched (content : Text)
    (h : containsSub hrMark content = true) :
    List.IsSuffix (content.drop (firstSubIdx hrMark content))
        (fix_banned_phrases content).1 ∧
      hrMark.isPrefixOf (content.drop (firstSubIdx hrMark content)) = true ∧
      ∀ i < firstSubIdx hrMark content,
        hrMark.isPrefixOf (content.drop i) = false := by
  refine ⟨?_, firstSubIdx_isPrefix hrMark content h, fun i hi => firstSubIdx_min hrMark content i hi⟩
  have hsplit : (fix_banned_phrases content).1 =
      (fbpLoop (lowerText (strip_html (beforeFirst hrMark content)))
        (beforeFirst hrMark content) [] BANNED_PHRASES).1 ++
        content.drop (firstSubIdx hrMark content) := by
    unfold fix_banned_phrases
    rw [h]
    simp [fromFirst]
  rw [hsplit]
  exact ⟨_, rfl⟩

/-- The C5 witness content, with a banned phrase before the break and a
footer after it. -/
def c5Content : Text :=
  ofStr "<p>They delve deep.</p><hr><h3>Continue Reading</h3><p>journey on</p>"

theorem c5_witness :
    List.IsSuffix (c5Content.drop (firstSubIdx hrMark c5Content))
        (fix_banned_phrases c5Content).1 ∧
      hrMark.isPrefixOf (c5Content.drop (firstSubIdx hrMark c5Content)) = true ∧
      ∀ i < firstSubIdx hrMark c5Content,
        hrMark.isPrefixOf (c5Content.drop i) = false :=
  c5_footer_untouched c5Content (by decide)

/-- C7 (amended): the exit code classifies the summary as the worst outcome
present — 2 iff at least one record errored (and the error count is exactly
the number of ERROR outcomes, so an individual record error does produce
exit 2), 1 iff no errors and at least one blocked record, 0 iff neither. -/
theorem c7_exit_code_classification (fs : FileSys) (now : Text) (slugs : List Text)
    (dry : Bool) (s : Summary) (outs : List OptResult)
    (h : run_pipeline fs now slugs dry = some (s, outs)) :
    s.errors = (outs.filter (fun r => r.status == OptStatus.error)).length ∧
    (mainExitCode s = 2 ↔ 0 < s.errors) ∧
    (mainExitCode s = 1 ↔ s.errors = 0 ∧ 0 < s.blocked) ∧
    (mainExitCode s = 0 ↔ s.errors = 0 ∧ s.blocked = 0) := by
  unfold run_pipeline at h
  cases hl : load_inventory fs with
  | none => rw [hl] at h; exact Option.noConfusion h
  | some inv =>
    rw [hl] at h
    dsimp only at h
    have h2 := Option.some.inj h
    have hs := congrArg Prod.fst h2
    have ho := congrArg Prod.snd h2
    dsimp only at hs ho
    subst ho
    refine ⟨by rw [← hs], ?_, ?_, ?_⟩ <;>
      (unfold mainExitCode; split_ifs <;> simp_all <;> omega)

/-- C7 counterexample: a run over a single missing record file — an
individual record error, not a per-run failure — yields one ERROR outcome
and process exit status 2, contradicting that an individual record error
does not produce exit 2. -/
theorem c7_counterexample :
    (run_pipeline { articles := [], imageFiles := [] } [] [ofStr "missing"] false).map
        (fun p => (mainExitCode p.1, p.2.map OptResult.status)) =
      some (2, [OptStatus.error]) := by
  decide

def c7Summary : Summary := { total := 1, saved := 0, blocked := 0, errors := 1 }

def c7ErrResult : OptResult :=
  { slug := ofStr "missing", status := OptStatus.error, blockFails := [],
    warnFails := [], changes := [], effects := [] }

theorem c7_witness :
    c7Summary.errors = ([c7ErrResult].filter (fun r => r.status == OptStatus.error)).length ∧
    (mainExitCode c7Summary = 2 ↔ 0 < c7Summary.errors) ∧
    (mainExitCode c7Summary = 1 ↔ c7Summary.errors = 0 ∧ 0 < c7Summary.blocked) ∧
    (mainExitCode c7Summary = 0 ↔ c7Summary.errors = 0 ∧ c7Summary.blocked = 0) :=
  c7_exit_code_classification { articles := [], imageFiles := [] } [] [ofStr "missing"]
    false c7Summary [c7ErrResult] (by decide)

/-- The doubly corrupted input of the C2 counterexample: the mojibake form
of `Â` followed by `©` — `U+00C3 U+201A U+00A9`. -/
def c2Bad : Text := [0xC3, 0x201A, 0xA9]

theorem c2fix1 : (fix_mojibake c2Bad).1 = [0xC2, 0xA9] := by decide

theorem c2fix2 : (fix_mojibake [0xC2, 0xA9]).1 = [0xA9] := by decide

/-- C2 counterexample: `fix_mojibake` is not idempotent.  On the doubly
corrupted text `Ã‚©`, the first pass rewrites the key `Ã‚` to `Â`, exposing
the key `Â©` — which was already passed in the longest-first key order — so
a second pass still rewrites it to `©`. -/
theorem c2_counterexample :
    (fix_mojibake (fix_mojibake c2Bad).1).1 ≠ (fix_mojibake c2Bad).1 := by
  rw [c2fix1, c2fix2]
  decide

theorem fixMojibakeGo_clean : ∀ (ks : List Text) (y : Text) (count : Nat),
    (∀ k ∈ ks, containsSub k y = false) → fixMojibakeGo y count ks = (y, count) := by
  intro ks
  induction ks with
  | nil => intro y c _; rfl
  | cons k rest ih =>
    intro y c h
    unfold fixMojibakeGo
    rw [h k (by simp)]
    simp only [Bool.false_eq_true, if_false]
    exact ih y c (fun k2 hk2 => h k2 (by simp [hk2]))

/-- C2 (amended): mojibake repair is idempotent on every input whose
repaired text contains no corrupted form — in particular on all
singly-corrupted text; a doubly-corrupted input can expose a
shorter corrupted form already passed by the longest-first loop, and then a
second application repairs further. -/
theorem c2_repair_idempotent_on_clean (x : Text)
    (h : ∀ k ∈ mojibakeKeysSorted, containsSub k (fix_mojibake x).1 = false) :
    (fix_mojibake (fix_mojibake x).1).1 = (fix_mojibake x).1 := by
  have h2 := fixMojibakeGo_clean mojibakeKeysSorted (fix_mojibake x).1 0 h
  show (fixMojibakeGo (fix_mojibake x).1 0 mojibakeKeysSorted).1 = (fix_mojibake x).1
  rw [h2]

/-- An ordinary clean text for the C2 witness. -/
def c2Clean : Text := ofStr "plain text"

theorem c2CleanFix : (fix_mojibake c2Clean).1 = c2Clean := by decide

theorem c2_witness :
    (fix_mojibake (fix_mojibake c2Clean).1).1 = (fix_mojibake c2Clean).1 :=
  c2_repair_idempotent_on_clean c2Clean (by
    have h0 : ∀ k ∈ mojibakeKeysSorted, containsSub k c2Clean = false := by decide
    simpa only [c2CleanFix] using h0)



theorem isDigitU_ascii {c : Nat} (h : c < 128) : isDigitU c = isDigit c := by
  interval_cases c <;> rfl

theorem yearAccept_impl {a b c d : Nat} (hc : c < 128) (hd : d < 128)
    (h : yearAcceptAudit a b c d = true) : yearAcceptPipe a b c d = true := by
  rw [yearAcceptAudit, isDigitU_ascii hc, isDigitU_ascii hd] at h
  simp only [yearAcceptPipe, isDigit, Bool.or_eq_true, Bool.and_eq_true,
    beq_iff_eq, decide_eq_true_eq] at h ⊢
  omega

theorem yearAcceptPipe_digits {a b c d : Nat} (h : yearAcceptPipe a b c d = true) :
    isWord a = true ∧ isWord b = true ∧ isWord c = true ∧ isWord d = true := by
  simp only [yearAcceptPipe, isDigit, Bool.or_eq_true, Bool.and_eq_true,
    beq_iff_eq, decide_eq_true_eq] at h
  simp only [isWord, isDigit, isUpper, isLower, Bool.or_eq_true, Bool.and_eq_true,
    beq_iff_eq, decide_eq_true_eq]
  omega

theorem matchYear_shape {ac : Nat → Nat → Nat → Nat → Bool} {prev : Option Nat}
    {s : Text} {r : Nat × Text} (h : matchYear ac prev s = some r) :
    ∃ a b c d rest, s = a :: b :: c :: d :: rest ∧ r = (4, [a, b, c, d]) ∧
      prevBoundary prev = true ∧ ac a b c d = true ∧ nextBoundary rest = true := by
  match s, h with
  | a :: b :: c :: d :: rest, h => ?_
  simp only [matchYear] at h
  split_ifs at h with hc
  case pos =>
    simp only [Bool.and_eq_true] at hc
    exact ⟨a, b, c, d, rest, rfl, (Option.some.inj h).symm, hc.1.1, hc.1.2, hc.2⟩

theorem matchYear_impl {prev : Option Nat} {s : Text} {r : Nat × Text}
    (hascii : ∀ x ∈ s, x < 128)
    (h : matchYear yearAcceptAudit prev s = some r) :
    matchYear yearAcceptPipe prev s = some r := by
  obtain ⟨a, b, c, d, rest, hs, hr, hp, ha, hn⟩ := matchYear_shape h
  subst hs
  subst hr
  have hc : c < 128 := hascii c (by simp)
  have hd : d < 128 := hascii d (by simp)
  simp only [matchYear, hp, yearAccept_impl hc hd ha, hn, Bool.and_self, if_true]

theorem matchYear_none_of_word {ac : Nat → Nat → Nat → Nat → Bool} {x : Nat}
    (hx : isWord x = true) (s : Text) : matchYear ac (some x) s = none := by
  unfold matchYear
  match s with
  | [] => rfl
  | [_] => rfl
  | [_, _] => rfl
  | [_, _, _] => rfl
  | a :: b :: c :: d :: rest =>
    simp [prevBoundary, hx]

theorem scanB_fuel_inv {α : Type} (m : Option Nat → Text → Option (Nat × α)) :
    ∀ (f1 : Nat) (s : Text) (f2 : Nat) (prev : Option Nat), s.length ≤ f1 → s.length ≤ f2 →
    scanB m f1 prev s = scanB m f2 prev s := by
  intro f1
  induction f1 with
  | zero =>
    intro s f2 prev h1 _
    have h0 : s = [] := List.length_eq_zero.1 (Nat.le_zero.1 h1)
    subst h0
    cases f2 <;> rfl
  | succ f ih =>
    intro s f2 prev h1 h2
    cases s with
    | nil => cases f2 <;> rfl
    | cons c cs =>
      cases f2 with
      | zero => simp at h2
      | succ f2p =>
        simp only [scanB]
        cases hm : m prev (c :: cs) with
        | some r =>
          obtain ⟨len, a2⟩ := r
          dsimp only
          have hd1 : ((c :: cs).drop (max len 1)).length ≤ f := by
            simp only [List.length_drop, List.length_cons] at h1 ⊢
            omega
          have hd2 : ((c :: cs).drop (max len 1)).length ≤ f2p := by
            simp only [List.length_drop, List.length_cons] at h2 ⊢
            omega
          rw [ih _ f2p _ hd1 hd2]
        | none =>
          exact ih cs f2p (some c) (by simpa using Nat.le_of_succ_le_succ h1)
            (by simpa using Nat.le_of_succ_le_succ h2)

theorem scanB_year_subset : ∀ (fuel : Nat) (prev : Option Nat) (s : Text),
    s.length ≤ fuel → (∀ x ∈ s, x < 128) →
    ∀ w ∈ scanB (matchYear yearAcceptAudit) fuel prev s,
      w ∈ scanB (matchYear yearAcceptPipe) fuel prev s := by
  intro fuel
  induction fuel with
  | zero => intro prev s _ _ w hw; simp [scanB] at hw
  | succ f ih =>
    intro prev s hs hascii w hw
    cases s with
    | nil => simp [scanB] at hw
    | cons c cs =>
      cases hA : matchYear yearAcceptAudit prev (c :: cs) with
      | some r =>
        obtain ⟨a, b, c2, d, rest, hsEq, hr, hbp, hacc, hnb⟩ := matchYear_shape hA
        have hP := matchYear_impl hascii hA
        subst hr
        simp only [scanB, hA, hP, List.mem_cons] at hw ⊢
        rcases hw with hw | hw
        · exact Or.inl hw
        · right
          refine ih _ _ ?_ (fun x hx => hascii x (List.drop_subset _ _ hx)) w hw
          simp only [List.length_drop, List.length_cons] at hs ⊢
          omega
      | none =>
        simp only [scanB, hA] at hw
        cases hP : matchYear yearAcceptPipe prev (c :: cs) with
        | none =>
          simp only [scanB, hP]
          exact ih (some c) cs (by simpa using Nat.le_of_succ_le_succ hs)
            (fun x hx => hascii x (List.mem_cons_of_mem c hx)) w hw
        | some r =>
          obtain ⟨a, b, c2, d, rest, hsEq, hr, hbp, hacc, hnb⟩ := matchYear_shape hP
          obtain ⟨hwa, hwb, hwc, hwd⟩ := yearAcceptPipe_digits hacc
          subst hr
          injection hsEq with hc hcs
          rw [hc] at hw
          rw [hcs] at hw
          -- step the audit scan over the three word characters b, c2, d
          have hl3 : rest.length + 3 ≤ f := by
            rw [hc, hcs] at hs
            simp only [List.length_cons] at hs
            omega
          have hw3 : w ∈ scanB (matchYear yearAcceptAudit) (rest.length + 3)
              (some a) (b :: c2 :: d :: rest) := by
            rw [scanB_fuel_inv (matchYear yearAcceptAudit) (rest.length + 3)
              (b :: c2 :: d :: rest) f (some a)
              (by simp only [List.length_cons]; omega) (by
                simp only [List.length_cons]; omega)]
            exact hw
          have hstep : scanB (matchYear yearAcceptAudit) (rest.length + 3)
              (some a) (b :: c2 :: d :: rest) =
              scanB (matchYear yearAcceptAudit) rest.length (some d) rest := by
            show scanB (matchYear yearAcceptAudit) (rest.length + 2 + 1)
              (some a) (b :: c2 :: d :: rest) = _
            rw [scanB, matchYear_none_of_word hwa]
            show scanB (matchYear yearAcceptAudit) (rest.length + 1 + 1)
              (some b) (c2 :: d :: rest) = _
            rw [scanB, matchYear_none_of_word hwb]
            rw [scanB, matchYear_none_of_word hwc]
          rw [hstep] at hw3
          have hw4 : w ∈ scanB (matchYear yearAcceptAudit) f (some d) rest := by
            rw [scanB_fuel_inv (matchYear yearAcceptAudit) f rest rest.length (some d)
              (by omega) (by omega)]
            exact hw3
          have hrascii : ∀ x ∈ rest, x < 128 := by
            intro x hx
            refine hascii x (List.mem_cons_of_mem c ?_)
            rw [hcs]
            exact List.mem_cons_of_mem b (List.mem_cons_of_mem c2
              (List.mem_cons_of_mem d hx))
          have hw5 := ih (some d) rest (by omega) hrascii w hw4
          simp only [scanB, hP, List.mem_cons]
          right
          have hdrop : (c :: cs).drop (max 4 1) = rest := by
            rw [hc, hcs]
            rfl
          have htake : ((c :: cs).take (max 4 1)).getLast? = some d := by
            rw [hc, hcs]
            rfl
          rw [hdrop, htake]
          exact hw5

theorem dedup_length_le_of_subset {l1 l2 : List Text} (h : l1 ⊆ l2) :
    l1.dedup.length ≤ l2.dedup.length := by
  rw [← List.card_toFinset, ← List.card_toFinset]
  exact Finset.card_le_card (fun x hx => by
    rw [List.mem_toFinset] at hx ⊢
    exact h hx)

/-- C6 (amended): the remediation scorer and the standalone audit tool are
each deterministic pure functions, but they implement different year
heuristics (`1[0-9]{3}|20[0-2][0-9]`, all-ASCII classes, against
`1[4-9]\d{2}|20[0-2]\d`, whose `\d` is the Unicode decimal-digit class),
so their outputs are not bit-for-bit identical, and the disagreement goes
in both directions; on text made of ASCII characters, every year the audit
tool counts is also counted by the remediation scorer, so there the audit
year count never exceeds the pipeline year count. -/
theorem c6_audit_years_le_pipeline_years (content t : Text) (wc : Nat)
    (h : ∀ x ∈ t, x < 128) :
    count_years t ≤ (compute_semantic_scores content t wc).years := by
  have hsub : findallB (matchYear yearAcceptAudit) t ⊆
      findallB (matchYear yearAcceptPipe) t :=
    fun w hw => scanB_year_subset (t.length + 1) none t (by omega) h w hw
  exact dedup_length_le_of_subset hsub

theorem c6_witness :
    (∀ x ∈ ofStr "held in 1492", x < 128) ∧
    count_years (ofStr "held in 1492") ≤
      (compute_semantic_scores [] (ofStr "held in 1492") 3).years :=
  ⟨by decide, c6_audit_years_le_pipeline_years [] (ofStr "held in 1492") 3 (by decide)⟩

/-- The code points of `15٠٠`: ASCII `1` and `5` followed by two
Arabic-Indic zeros (U+0660), which Python `\d` matches and `[0-9]` does
not. -/
def c6Arabic : Text := [0x31, 0x35, 0x660, 0x660]

/-- C6 counterexample: the two scorers disagree in both directions — the
year 1350 is accepted by the pipeline alternation and rejected by the
audit tool, while a year written with Arabic-Indic digits is accepted by
the audit tool (whose `\d` is the Unicode digit class) and rejected by the
pipeline (whose digit positions are the ASCII class `[0-9]`). -/
theorem c6_counterexample :
    ((compute_semantic_scores [] (ofStr "in 1350 it held") 4).years ≠
      count_years (ofStr "in 1350 it held")) ∧
    count_years c6Arabic = 1 ∧
    (compute_semantic_scores [] c6Arabic 1).years = 0 := by
  refine ⟨by decide, by decide, by decide⟩

end SemanticPipe
